import Mathlib

/-!
# Verification of the paperclip-protocol state-transition logic

Shallow embedding of the Solana/Anchor program `paperclip-protocol`
(sources under `programs/paperclip-protocol/src/`).  Machine integers are
modelled as `Nat` together with the explicit moduli `U8/U16/U32/U64`;
`checked_add` / `checked_mul` return `Option Nat` exactly as Rust's
checked arithmetic does.  Public keys (wallets) are modelled as `Nat`;
program-derived addresses (`Pubkey::find_program_address` with the
distinct seed tags `protocol` / `agent` / `task` / `claim` / `invite`)
are modelled by the inductive `Addr`, whose constructor injectivity
captures the collision-resistance between the different seed kinds.

Anchor semantics embedded here: the account-resolution phase generated by
`#[derive(Accounts)]` runs before the handler body, in field-declaration
order.  Resolution of an `init` account fails when the derived address is
already occupied (`ErrorCode.AccountAlreadyInUse`), and resolution of a
plain `Account` fails when no record exists at the derived address
(`ErrorCode.AccountNotFound`).  On any error the hosting runtime rolls
the whole transaction back, so a transition is `Except Err ChainState`:
either a fully applied new state or an error with no state change.
-/

namespace Paperclip

/-- 2^8, modulus of Rust `u8`. -/
def U8 : Nat := 2 ^ 8

/-- 2^16, modulus of Rust `u16`. -/
def U16 : Nat := 2 ^ 16

/-- 2^32, modulus of Rust `u32`. -/
def U32 : Nat := 2 ^ 32

/-- 2^64, modulus of Rust `u64`. -/
def U64 : Nat := 2 ^ 64

/-- `constants.rs`: `pub const NO_PREREQ_TASK_ID: u32 = u32::MAX;` -/
def NO_PREREQ_TASK_ID : Nat := U32 - 1

/-- `constants.rs`: `pub const ACCOUNT_LAYOUT_V1: u8 = 1;` -/
def ACCOUNT_LAYOUT_V1 : Nat := 1

/-- Rust `checked_add` on a `w`-bit unsigned integer (`w` is the modulus). -/
def checkedAdd (w a b : Nat) : Option Nat :=
  if a + b < w then some (a + b) else none

/-- Rust `checked_mul` on a `w`-bit unsigned integer (`w` is the modulus). -/
def checkedMul (w a b : Nat) : Option Nat :=
  if a * b < w then some (a * b) else none

/-- `state/mod.rs` `ProtocolState` (the `bump` and `reserved` fields carry
no transition-relevant information and are omitted). -/
structure ProtocolState where
  layout_version : Nat
  authority : Nat
  base_reward_unit : Nat
  total_agents : Nat
  total_tasks : Nat
  total_clips_distributed : Nat
  paused : Bool
deriving DecidableEq

/-- `state/mod.rs` `AgentAccount` (sans `bump`/`reserved`). -/
structure AgentAccount where
  layout_version : Nat
  wallet : Nat
  clips_balance : Nat
  efficiency_tier : Nat
  tasks_completed : Nat
  registered_at : Int
  last_active_at : Int
  invites_sent : Nat
  invites_redeemed : Nat
  invited_by : Nat
deriving DecidableEq

/-- `state/mod.rs` `TaskRecord` (sans `bump`/`reserved`; the opaque byte
blobs `title` and `content_cid` are modelled as opaque `Nat` values). -/
structure TaskRecord where
  layout_version : Nat
  task_id : Nat
  creator : Nat
  title : Nat
  content_cid : Nat
  reward_clips : Nat
  max_claims : Nat
  current_claims : Nat
  is_active : Bool
  created_at : Int
  min_tier : Nat
  required_task_id : Nat
deriving DecidableEq

/-- `state/mod.rs` `ClaimRecord` (sans `bump`/`reserved`; `proof_cid`
is an opaque `Nat`). -/
structure ClaimRecord where
  layout_version : Nat
  task_id : Nat
  agent : Nat
  proof_cid : Nat
  clips_awarded : Nat
  completed_at : Int
deriving DecidableEq

/-- `state/mod.rs` `InviteRecord` (sans `bump`/`reserved`; the 32-byte
`invite_code` is an identity value, modelled as `Nat` like wallets). -/
structure InviteRecord where
  layout_version : Nat
  inviter_wallet : Nat
  invite_code : Nat
  invites_redeemed : Nat
  created_at : Int
  is_active : Bool
deriving DecidableEq

/-- Program-derived addresses.  Each constructor corresponds to one seed
tag of `constants.rs` (`PROTOCOL_SEED`, `AGENT_SEED`, `TASK_SEED`,
`CLAIM_SEED`, `INVITE_SEED`); `walletA` is an ordinary (non-derived)
identity and `otherA` any other address. -/
inductive Addr
| protocolA : Addr
| agentA (wallet : Nat) : Addr
| taskA (task_id : Nat) : Addr
| claimA (task_id : Nat) (wallet : Nat) : Addr
| inviteA (wallet : Nat) : Addr
| walletA (n : Nat) : Addr
| otherA (n : Nat) : Addr
deriving DecidableEq

/-- An entry of `ctx.remaining_accounts` as `submit_proof` sees it: a
raw account with its address, its owner (only "owned by this program"
matters), and its data, which either deserializes as a `ClaimRecord`
(`some`) or does not (`none`). -/
structure SuppliedAccount where
  key : Addr
  ownedByProgram : Bool
  data : Option ClaimRecord
deriving DecidableEq

/-- `error.rs` `ErrorCode`, extended by the two failures produced by the
Anchor account-resolution phase rather than the handler bodies:
`AccountAlreadyInUse` (an `init` account whose derived address already
holds a record) and `AccountNotFound` (a non-`init` account whose
derived address holds no record). -/
inductive ErrorCode
| Unauthorized
| TaskInactive
| TaskFullyClaimed
| MathOverflow
| TierTooLow
| MissingRequiredTaskProof
| InvalidPrerequisiteAccount
| InvalidTaskPrerequisite
| InvalidInviteCode
| InviteInactive
| SelfReferralNotAllowed
| AccountAlreadyInUse
| AccountNotFound
deriving DecidableEq

/-- The whole on-chain state owned by the program: the singleton
`ProtocolState` plus every Agent/Task/Claim/Invite record.  A record
being in the list means a record exists at its derived address
(`Addr.agentA wallet`, `Addr.taskA task_id`, `Addr.claimA task_id agent`,
`Addr.inviteA inviter_wallet`); every handler creates records at the
address derived from the key stored in the record, so lookup by key
field is exactly lookup by derived address. -/
structure ChainState where
  protocol : Option ProtocolState
  agents : List AgentAccount
  tasks : List TaskRecord
  claims : List ClaimRecord
  invites : List InviteRecord
deriving DecidableEq

/-- Decidable equality of transition results (needed so witnesses can be
checked by `decide`). -/
instance {ε α : Type} [DecidableEq ε] [DecidableEq α] : DecidableEq (Except ε α) := fun x y =>
  match x, y with
  | .ok a, .ok b =>
    if h : a = b then isTrue (by rw [h]) else isFalse (by intro hc; cases hc; exact h rfl)
  | .error e, .error f =>
    if h : e = f then isTrue (by rw [h]) else isFalse (by intro hc; cases hc; exact h rfl)
  | .ok _, .error _ => isFalse (by intro hc; cases hc)
  | .error _, .ok _ => isFalse (by intro hc; cases hc)

/-- The state before `initialize` has run: nothing exists. -/
def emptyChain : ChainState := ⟨none, [], [], [], []⟩

/-- Record at address `Addr.agentA w`, if any. -/
def findAgent (s : ChainState) (w : Nat) : Option AgentAccount :=
  s.agents.find? (fun a => a.wallet == w)

/-- Record at address `Addr.taskA tid`, if any. -/
def findTask (s : ChainState) (tid : Nat) : Option TaskRecord :=
  s.tasks.find? (fun t => t.task_id == tid)

/-- Record at address `Addr.claimA tid w`, if any. -/
def findClaim (s : ChainState) (tid w : Nat) : Option ClaimRecord :=
  s.claims.find? (fun c => c.task_id == tid && c.agent == w)

/-- Record at address `Addr.inviteA w`, if any. -/
def findInvite (s : ChainState) (w : Nat) : Option InviteRecord :=
  s.invites.find? (fun i => i.inviter_wallet == w)

/-- In-place mutation of the agent record with wallet `w`
(an Anchor `#[account(mut)]` write-back). -/
def updAgents (l : List AgentAccount) (w : Nat) (f : AgentAccount → AgentAccount) :
    List AgentAccount :=
  l.map (fun a => if a.wallet == w then f a else a)

/-- In-place mutation of the task record with id `tid`. -/
def updTasks (l : List TaskRecord) (tid : Nat) (f : TaskRecord → TaskRecord) :
    List TaskRecord :=
  l.map (fun t => if t.task_id == tid then f t else t)

/-- In-place mutation of the invite record of inviter `w`. -/
def updInvites (l : List InviteRecord) (w : Nat) (f : InviteRecord → InviteRecord) :
    List InviteRecord :=
  l.map (fun i => if i.inviter_wallet == w then f i else i)

/-- Anchor's `.ok_or(e)?` / account-resolution step: unwrap an optional
value or abort the transition with `e`. -/
def getOr {α : Type} (o : Option α) (e : ErrorCode) : Except ErrorCode α :=
  match o with
  | some a => .ok a
  | none => .error e

/-- Anchor's `require!(p, e)` (and the `constraint = p @ e` attribute):
continue when `p` holds, abort the transition with `e` otherwise. -/
def require (p : Prop) [Decidable p] (e : ErrorCode) : Except ErrorCode Unit :=
  if p then .ok () else .error e

/-- The `ProtocolState` written by `initialize.rs` lines 149-157. -/
def freshProtocol (caller : Nat) (base_reward_unit : Nat) : ProtocolState :=
  { layout_version := ACCOUNT_LAYOUT_V1
    authority := caller
    base_reward_unit := base_reward_unit % U64
    total_agents := 0
    total_tasks := 0
    total_clips_distributed := 0
    paused := false }

/-- `instructions/initialize.rs`: resolution (`init` of the protocol
singleton fails if it exists), then the handler, which fills every field. -/
def doInitProtocol (s : ChainState) (caller : Nat) (base_reward_unit : Nat) :
    Except ErrorCode ChainState :=
  match s.protocol with
  | some _ => .error .AccountAlreadyInUse
  | none => .ok { s with protocol := some (freshProtocol caller base_reward_unit) }

/-- `instructions/register_agent.rs`: resolution (protocol must exist,
`init` of the agent account at `[AGENT_SEED, caller]` fails if the caller
is already registered), then the handler.  The handler never assigns
`invites_sent`, `invites_redeemed` or `invited_by`, so they keep the
zero value Anchor's `init` gives a fresh account; `freshAgent` is the
record the handler leaves behind (`register_agent.rs` lines 152-160 plus
those zero-initialized fields). -/
def freshAgent (caller reward : Nat) (now : Int) : AgentAccount :=
  { layout_version := ACCOUNT_LAYOUT_V1
    wallet := caller
    clips_balance := reward
    efficiency_tier := 0
    tasks_completed := 0
    registered_at := now
    last_active_at := now
    invites_sent := 0
    invites_redeemed := 0
    invited_by := 0 }

def doRegisterAgent (s : ChainState) (caller : Nat) (now : Int) :
    Except ErrorCode ChainState := do
  let protocol ← getOr s.protocol .AccountNotFound
  require (findAgent s caller = none) .AccountAlreadyInUse
  let ta ← getOr (checkedAdd U32 protocol.total_agents 1) .MathOverflow
  let tc ← getOr (checkedAdd U64 protocol.total_clips_distributed protocol.base_reward_unit)
    .MathOverflow
  pure { s with
    agents := freshAgent caller protocol.base_reward_unit now :: s.agents
    protocol := some { protocol with total_agents := ta, total_clips_distributed := tc } }

/-- `instructions/register_agent_with_invite.rs`.  Resolution in Anchor
field order: `protocol`, `agent_account` (`init`, fails when the caller
already has an agent record), `inviter_agent` (must exist at
`[AGENT_SEED, inviter_agent.wallet]`), `invite_record` (must exist at
`[INVITE_SEED, inviter_agent.wallet]`).  Then the handler body with its
checks and checked arithmetic in source order.  `checked_div(2)` can
never fail (constant nonzero divisor), so it is plain division here.
`freshInvitedAgent` is the agent record written at lines 76-87. -/
def freshInvitedAgent (caller reward inviter : Nat) (now : Int) : AgentAccount :=
  { layout_version := ACCOUNT_LAYOUT_V1
    wallet := caller
    clips_balance := reward
    efficiency_tier := 0
    tasks_completed := 0
    registered_at := now
    last_active_at := now
    invites_sent := 0
    invites_redeemed := 1
    invited_by := inviter }

def doRegisterWithInvite (s : ChainState) (caller inviter : Nat) (invite_code : Nat)
    (now : Int) : Except ErrorCode ChainState := do
  let protocol ← getOr s.protocol .AccountNotFound
  require (findAgent s caller = none) .AccountAlreadyInUse
  let inviter_agent ← getOr (findAgent s inviter) .AccountNotFound
  let invite_record ← getOr (findInvite s inviter_agent.wallet) .AccountNotFound
  require (inviter_agent.wallet ≠ caller) .SelfReferralNotAllowed
  require (invite_record.is_active = true) .InviteInactive
  require (invite_record.inviter_wallet = inviter_agent.wallet) .InvalidInviteCode
  require (invite_code = inviter_agent.wallet) .InvalidInviteCode
  require (invite_record.invite_code = invite_code) .InvalidInviteCode
  let m ← getOr (checkedMul U64 protocol.base_reward_unit 3) .MathOverflow
  let ibal ← getOr (checkedAdd U64 inviter_agent.clips_balance (protocol.base_reward_unit / 2))
    .MathOverflow
  let isent ← getOr (checkedAdd U32 inviter_agent.invites_sent 1) .MathOverflow
  let ired ← getOr (checkedAdd U32 invite_record.invites_redeemed 1) .MathOverflow
  let ta ← getOr (checkedAdd U32 protocol.total_agents 1) .MathOverflow
  let tc1 ← getOr (checkedAdd U64 protocol.total_clips_distributed (m / 2)) .MathOverflow
  let tc2 ← getOr (checkedAdd U64 tc1 (protocol.base_reward_unit / 2)) .MathOverflow
  pure { s with
    agents :=
      freshInvitedAgent caller (m / 2) inviter_agent.wallet now ::
      updAgents s.agents inviter_agent.wallet
        (fun a => { a with clips_balance := ibal, invites_sent := isent, last_active_at := now })
    invites := updInvites s.invites inviter_agent.wallet
      (fun i => { i with invites_redeemed := ired })
    protocol := some { protocol with total_agents := ta, total_clips_distributed := tc2 } }

/-- `instructions/create_invite.rs`: resolution (protocol exists, the
caller's agent record exists and its `wallet` equals the caller, `init`
of the invite record at `[INVITE_SEED, caller]` fails if one exists),
then the handler; `freshInvite` is the record written at lines 114-120. -/
def freshInvite (caller : Nat) (now : Int) : InviteRecord :=
  { layout_version := ACCOUNT_LAYOUT_V1
    inviter_wallet := caller
    invite_code := caller
    invites_redeemed := 0
    created_at := now
    is_active := true }

def doCreateInvite (s : ChainState) (caller : Nat) (now : Int) :
    Except ErrorCode ChainState := do
  let _protocol ← getOr s.protocol .AccountNotFound
  let agent_account ← getOr (findAgent s caller) .AccountNotFound
  require (agent_account.wallet = caller) .Unauthorized
  require (findInvite s caller = none) .AccountAlreadyInUse
  pure { s with invites := freshInvite caller now :: s.invites }

/-- `instructions/create_task.rs`: resolution (protocol exists with
`authority == caller`, else `Unauthorized`; `init` of the task at
`[TASK_SEED, task_id]` fails if the id is taken), then the handler.
The handler (lines 53-64) sets every `TaskRecord` field except
`layout_version` (and `reserved`), which therefore keeps the zero value
of the freshly `init`-ed account: the created task's `layout_version` is
`0`, not `ACCOUNT_LAYOUT_V1`.  `freshTask` is the record it leaves. -/
def freshTask (caller : Nat)
    (task_id title content_cid reward_clips max_claims min_tier required_task_id : Nat)
    (now : Int) : TaskRecord :=
  { layout_version := 0
    task_id := task_id % U32
    creator := caller
    title := title
    content_cid := content_cid
    reward_clips := reward_clips % U64
    max_claims := max_claims % U16
    current_claims := 0
    is_active := true
    created_at := now
    min_tier := min_tier % U8
    required_task_id := required_task_id % U32 }

/-- `create_task.rs` lines 46-51: the self-prerequisite guard, run only
when a real prerequisite id (not the sentinel) is supplied. -/
def requireNotSelfPrereq (task_id required_task_id : Nat) : Except ErrorCode Unit :=
  if required_task_id % U32 ≠ NO_PREREQ_TASK_ID then
    require (required_task_id % U32 ≠ task_id % U32) .InvalidTaskPrerequisite
  else pure ()

def doCreateTask (s : ChainState) (caller : Nat)
    (task_id title content_cid reward_clips max_claims min_tier required_task_id : Nat)
    (now : Int) : Except ErrorCode ChainState := do
  let protocol ← getOr s.protocol .AccountNotFound
  require (protocol.authority = caller) .Unauthorized
  require (findTask s (task_id % U32) = none) .AccountAlreadyInUse
  requireNotSelfPrereq task_id required_task_id
  let tt ← getOr (checkedAdd U32 protocol.total_tasks 1) .MathOverflow
  pure { s with
    tasks := freshTask caller task_id title content_cid reward_clips max_claims
      min_tier required_task_id now :: s.tasks
    protocol := some { protocol with total_tasks := tt } }

/-- `instructions/deactivate_task.rs`: resolution (protocol exists with
`authority == caller`, task exists), then the handler, which only sets
`is_active := false`. -/
def doDeactivateTask (s : ChainState) (caller : Nat) (task_id : Nat) :
    Except ErrorCode ChainState := do
  let protocol ← getOr s.protocol .AccountNotFound
  require (protocol.authority = caller) .Unauthorized
  let _task ← getOr (findTask s (task_id % U32)) .AccountNotFound
  pure { s with tasks := updTasks s.tasks (task_id % U32) (fun t => { t with is_active := false }) }

/-- `submit_proof.rs` lines 58-102: the prerequisite-claim verification,
run only when the task's `required_task_id` is not the sentinel.  In
source order: missing `remaining_accounts` entry, address comparison
against the re-derived claim PDA, owner check, deserialization, stored
`task_id` check, stored `agent` check. -/
def prereqCheck (task : TaskRecord) (caller : Nat) (pa : Option SuppliedAccount) :
    Except ErrorCode Unit := do
  if task.required_task_id ≠ NO_PREREQ_TASK_ID then
    let acc ← getOr pa .MissingRequiredTaskProof
    require (acc.key = Addr.claimA task.required_task_id caller) .InvalidPrerequisiteAccount
    require (acc.ownedByProgram = true) .MissingRequiredTaskProof
    let c ← getOr acc.data .MissingRequiredTaskProof
    require (c.task_id = task.required_task_id) .InvalidPrerequisiteAccount
    require (c.agent = caller) .InvalidPrerequisiteAccount

/-- `instructions/submit_proof.rs`.  Resolution in Anchor field order:
`protocol`, `task` at `[TASK_SEED, task_id]`, `agent_account` at
`[AGENT_SEED, caller]`, `claim` (`init` at
`[CLAIM_SEED, task_id, caller]`, fails when a claim for the pair already
exists).  Then the handler: tier check, prerequisite verification,
active check, capacity check, and the checked mutations in source
order.  `freshClaim` is the claim record written at lines 136-143. -/
def freshClaim (task_id agent proof_cid clips_awarded : Nat) (now : Int) : ClaimRecord :=
  { layout_version := ACCOUNT_LAYOUT_V1
    task_id := task_id
    agent := agent
    proof_cid := proof_cid
    clips_awarded := clips_awarded
    completed_at := now }

def doSubmitProof (s : ChainState) (caller : Nat) (task_id : Nat) (proof_cid : Nat)
    (pa : Option SuppliedAccount) (now : Int) : Except ErrorCode ChainState := do
  let protocol ← getOr s.protocol .AccountNotFound
  let task ← getOr (findTask s (task_id % U32)) .AccountNotFound
  let agent_account ← getOr (findAgent s caller) .AccountNotFound
  require (findClaim s (task_id % U32) caller = none) .AccountAlreadyInUse
  require (task.min_tier ≤ agent_account.efficiency_tier) .TierTooLow
  prereqCheck task caller pa
  require (task.is_active = true) .TaskInactive
  require (task.current_claims < task.max_claims) .TaskFullyClaimed
  let cc ← getOr (checkedAdd U16 task.current_claims 1) .MathOverflow
  let bal ← getOr (checkedAdd U64 agent_account.clips_balance task.reward_clips) .MathOverflow
  let tcd ← getOr (checkedAdd U32 agent_account.tasks_completed 1) .MathOverflow
  let tcl ← getOr (checkedAdd U64 protocol.total_clips_distributed task.reward_clips)
    .MathOverflow
  pure { s with
    tasks := updTasks s.tasks (task_id % U32) (fun t => { t with current_claims := cc })
    agents := updAgents s.agents caller
      (fun a => { a with clips_balance := bal, tasks_completed := tcd, last_active_at := now })
    protocol := some { protocol with total_clips_distributed := tcl }
    claims := freshClaim (task_id % U32) caller proof_cid task.reward_clips now :: s.claims }

/-- The seven program entrypoints of `lib.rs` with their instruction
arguments, the calling signer, and the host-supplied clock value.
`Instruction.initProtocol` models `initialize`. -/
inductive Instruction
| initProtocol (caller base_reward_unit : Nat) : Instruction
| registerAgent (caller : Nat) (now : Int) : Instruction
| registerAgentWithInvite (caller inviter invite_code : Nat) (now : Int) : Instruction
| createInvite (caller : Nat) (now : Int) : Instruction
| createTask (caller task_id title content_cid reward_clips max_claims min_tier
    required_task_id : Nat) (now : Int) : Instruction
| submitProof (caller task_id proof_cid : Nat) (pa : Option SuppliedAccount)
    (now : Int) : Instruction
| deactivateTask (caller task_id : Nat) : Instruction
deriving DecidableEq

/-- One transaction: dispatch to the instruction's handler. -/
def stepResult (s : ChainState) : Instruction → Except ErrorCode ChainState
| .initProtocol caller base => doInitProtocol s caller base
| .registerAgent caller now => doRegisterAgent s caller now
| .registerAgentWithInvite caller inviter code now =>
    doRegisterWithInvite s caller inviter code now
| .createInvite caller now => doCreateInvite s caller now
| .createTask caller tid title cid reward maxc mint req now =>
    doCreateTask s caller tid title cid reward maxc mint req now
| .submitProof caller tid pcid pa now => doSubmitProof s caller tid pcid pa now
| .deactivateTask caller tid => doDeactivateTask s caller tid

/-- The committed state after a transaction: the new state on success,
the old state untouched on any rejection (host atomicity). -/
def applyStep (s : ChainState) (i : Instruction) : ChainState :=
  match stepResult s i with
  | .ok s' => s'
  | .error _ => s

/-- Run a sequence of transactions. -/
def run (s : ChainState) : List Instruction → ChainState
| [] => s
| i :: l => run (applyStep s i) l

/-- States reachable from the uninitialized chain through successful
transitions (failed transactions leave the state unchanged, so only
successful ones matter for reachability). -/
inductive Reachable : ChainState → Prop
| empty : Reachable emptyChain
| step {s s' : ChainState} {i : Instruction} :
    Reachable s → stepResult s i = .ok s' → Reachable s'

/-- `total_agents` of the protocol singleton (0 before `initialize`). -/
def protoTotalAgents (s : ChainState) : Nat :=
  match s.protocol with
  | some p => p.total_agents
  | none => 0

/-- `total_clips_distributed` of the protocol singleton. -/
def protoTotalClips (s : ChainState) : Nat :=
  match s.protocol with
  | some p => p.total_clips_distributed
  | none => 0

/-- `base_reward_unit` of the protocol singleton. -/
def protoBase (s : ChainState) : Nat :=
  match s.protocol with
  | some p => p.base_reward_unit
  | none => 0

/-- The reward amount an instruction would credit if it succeeded from
state `s`: the base registration reward, the invite-path invitee reward
plus inviter bonus, or the task reward; 0 for non-crediting
instructions. -/
def opCredit (s : ChainState) : Instruction → Nat
| .registerAgent _ _ => protoBase s
| .registerAgentWithInvite _ _ _ _ => protoBase s * 3 / 2 + protoBase s / 2
| .submitProof _ tid _ _ _ =>
    match findTask s (tid % U32) with
    | some t => t.reward_clips
    | none => 0
| _ => 0

/-- The reward actually credited by a transaction: `opCredit` when the
transition succeeds, 0 when it is rejected. -/
def creditOf (s : ChainState) (i : Instruction) : Nat :=
  match stepResult s i with
  | .ok _ => opCredit s i
  | .error _ => 0

/-- 1 when the transaction successfully creates an Agent record. -/
def agentsCreatedOf (s : ChainState) (i : Instruction) : Nat :=
  match stepResult s i, i with
  | .ok _, .registerAgent _ _ => 1
  | .ok _, .registerAgentWithInvite _ _ _ _ => 1
  | _, _ => 0

/-- Sum of rewards actually credited along a transaction sequence. -/
def totalCredited (s : ChainState) : List Instruction → Nat
| [] => 0
| i :: l => creditOf s i + totalCredited (applyStep s i) l

/-- Number of Agent records successfully created along a sequence. -/
def agentsCreated (s : ChainState) : List Instruction → Nat
| [] => 0
| i :: l => agentsCreatedOf s i + agentsCreated (applyStep s i) l

/-- The `(task_id, agent)` keys of all existing Claim records; the claim
PDA `Addr.claimA` is derived from exactly this pair. -/
def claimKeys (s : ChainState) : List (Nat × Nat) :=
  s.claims.map (fun c => (c.task_id, c.agent))

/-- Every record kind has pairwise-distinct derived-address keys: two
distinct records can never sit at the same derived address. -/
def WF (s : ChainState) : Prop :=
  (s.agents.map (fun a => a.wallet)).Nodup ∧
  (s.tasks.map (fun t => t.task_id)).Nodup ∧
  (claimKeys s).Nodup ∧
  (s.invites.map (fun i => i.inviter_wallet)).Nodup

/-- `current_claims <= max_claims` for every existing task. -/
def TasksBounded (s : ChainState) : Prop :=
  ∀ t ∈ s.tasks, t.current_claims ≤ t.max_claims

/-- Every existing invite record is active. -/
def InvitesActive (s : ChainState) : Prop :=
  ∀ iv ∈ s.invites, iv.is_active = true

/-! ### Concrete executable scenario states (used by witnesses) -/

/-- After `initialize(base_reward_unit = 1000)` signed by authority 0. -/
def sInit : ChainState := applyStep emptyChain (.initProtocol 0 1000)

/-- ... then `register_agent` by wallet 1. -/
def sReg : ChainState := applyStep sInit (.registerAgent 1 5)

/-- ... then `create_invite` by wallet 1. -/
def sInv : ChainState := applyStep sReg (.createInvite 1 6)

/-- ... then `register_agent_with_invite` by wallet 2 redeeming wallet 1's code. -/
def sTwo : ChainState := applyStep sInv (.registerAgentWithInvite 2 1 1 7)

/-- ... then `create_task` (task 10, reward 500, max_claims 1, no prerequisite). -/
def sTask : ChainState := applyStep sTwo (.createTask 0 10 77 88 500 1 0 NO_PREREQ_TASK_ID 8)

/-- ... then `submit_proof` on task 10 by wallet 1. -/
def sClaimed : ChainState := applyStep sTask (.submitProof 1 10 99 none 9)

/-- ... then task 12 (max_claims 0, min_tier 3), deactivated. -/
def sT12 : ChainState := applyStep sClaimed (.createTask 0 12 0 0 10 0 3 NO_PREREQ_TASK_ID 20)

def sT12d : ChainState := applyStep sT12 (.deactivateTask 0 12)

/-- ... then task 13 (requires task 10), deactivated. -/
def sT13 : ChainState := applyStep sT12d (.createTask 0 13 0 0 10 1 0 10 21)

def sT13d : ChainState := applyStep sT13 (.deactivateTask 0 13)

/-- ... then task 14 (max_claims 0), deactivated. -/
def sT14 : ChainState := applyStep sT13d (.createTask 0 14 0 0 10 0 0 NO_PREREQ_TASK_ID 22)

def sFin : ChainState := applyStep sT14 (.deactivateTask 0 14)

/-- The instruction sequence from `sInit` to `sClaimed`. -/
def c2ops : List Instruction :=
  [.registerAgent 1 5, .createInvite 1 6, .registerAgentWithInvite 2 1 1 7,
   .createTask 0 10 77 88 500 1 0 NO_PREREQ_TASK_ID 8, .submitProof 1 10 99 none 9]

/-- A handcrafted state whose protocol clip counter is at the maximum
`u64` value: one more credited reward must overflow. -/
def pOv : ProtocolState := ⟨1, 0, 1000, 1, 1, U64 - 1, false⟩

def aOv : AgentAccount := ⟨1, 1, 5, 0, 0, 0, 0, 0, 0, 0⟩

def tOv : TaskRecord := ⟨0, 10, 0, 0, 0, 500, 5, 0, true, 0, 0, NO_PREREQ_TASK_ID⟩

def sOv : ChainState := ⟨some pOv, [aOv], [tOv], [], []⟩

/-- A handcrafted state whose inviter balance is at the maximum `u64`
value: the inviter bonus must overflow. -/
def iaOv : AgentAccount := ⟨1, 1, U64 - 1, 0, 0, 0, 0, 0, 0, 0⟩

def ivOv : InviteRecord := ⟨1, 1, 1, 0, 0, true⟩

def sOv2 : ChainState := ⟨some ⟨1, 0, 1000, 1, 0, 0, false⟩, [iaOv], [], [], [ivOv]⟩

/-- A handcrafted state whose agent counter is at the maximum `u32`
value: one more registration must overflow it. -/
def pOv3 : ProtocolState := ⟨1, 0, 1000, U32 - 1, 0, 0, false⟩

def sOv3 : ChainState := ⟨some pOv3, [], [], [], []⟩

/-- A handcrafted state whose task counter is at the maximum `u32`
value: one more task creation must overflow it. -/
def pOv4 : ProtocolState := ⟨1, 0, 1000, 0, U32 - 1, 0, false⟩

def sOv4 : ChainState := ⟨some pOv4, [], [], [], []⟩

/-! ## Basic lemmas about the step machinery -/

@[simp] theorem getOr_some {α : Type} (a : α) (e : ErrorCode) : getOr (some a) e = .ok a := rfl

@[simp] theorem getOr_none {α : Type} (e : ErrorCode) :
    getOr (none : Option α) e = .error e := rfl

theorem require_pos {p : Prop} [Decidable p] (e : ErrorCode) (hp : p) :
    require p e = .ok () := by
  simp [require, hp]

theorem require_neg {p : Prop} [Decidable p] (e : ErrorCode) (hp : ¬p) :
    require p e = .error e := by
  simp [require, hp]

@[simp] theorem ok_bind {α β : Type} (a : α) (f : α → Except ErrorCode β) :
    (Except.ok a >>= f : Except ErrorCode β) = f a := rfl

@[simp] theorem error_bind {α β : Type} (e : ErrorCode) (f : α → Except ErrorCode β) :
    (Except.error e >>= f : Except ErrorCode β) = .error e := rfl

@[simp] theorem pure_ok {α : Type} (a : α) : (pure a : Except ErrorCode α) = .ok a := rfl

theorem getOr_ok {α : Type} {o : Option α} {e : ErrorCode} {a : α}
    (h : getOr o e = .ok a) : o = some a := by
  cases o with
  | some b => simp only [getOr_some, Except.ok.injEq] at h; rw [h]
  | none => exact Except.noConfusion h

theorem require_ok {p : Prop} [Decidable p] {e : ErrorCode} {u : Unit}
    (h : require p e = .ok u) : p := by
  by_cases hp : p
  · exact hp
  · rw [require_neg e hp] at h
    exact Except.noConfusion h

theorem getOr_err {α : Type} {o : Option α} {e e' : ErrorCode}
    (h : getOr o e = .error e') : o = none ∧ e' = e := by
  cases o with
  | some a => exact Except.noConfusion h
  | none =>
    simp only [getOr_none, Except.error.injEq] at h
    exact ⟨rfl, h.symm⟩

theorem require_err {p : Prop} [Decidable p] {e e' : ErrorCode}
    (h : require p e = .error e') : ¬p ∧ e' = e := by
  by_cases hp : p
  · rw [require_pos _ hp] at h
    exact Except.noConfusion h
  · rw [require_neg _ hp] at h
    simp only [Except.error.injEq] at h
    exact ⟨hp, h.symm⟩

theorem checkedAdd_none {w a b : Nat} (h : ¬ a + b < w) : checkedAdd w a b = none := by
  simp [checkedAdd, h]

theorem checkedMul_none {w a b : Nat} (h : ¬ a * b < w) : checkedMul w a b = none := by
  simp [checkedMul, h]

theorem bind_ok_inv {α β : Type} {x : Except ErrorCode α} {f : α → Except ErrorCode β}
    {b : β} (h : x >>= f = .ok b) : ∃ a, x = .ok a ∧ f a = .ok b := by
  cases x with
  | ok a => exact ⟨a, rfl, h⟩
  | error e => exact Except.noConfusion h

theorem bind_err_inv {α β : Type} {x : Except ErrorCode α} {f : α → Except ErrorCode β}
    {e : ErrorCode} (h : x >>= f = .error e) :
    x = .error e ∨ ∃ a, x = .ok a ∧ f a = .error e := by
  cases x with
  | ok a => exact Or.inr ⟨a, rfl, h⟩
  | error e' =>
    left
    simp only [error_bind, Except.error.injEq] at h
    rw [h]

theorem applyStep_ok {s : ChainState} {i : Instruction} {s' : ChainState}
    (h : stepResult s i = .ok s') : applyStep s i = s' := by
  simp [applyStep, h]

theorem applyStep_err {s : ChainState} {i : Instruction} {e : ErrorCode}
    (h : stepResult s i = .error e) : applyStep s i = s := by
  simp [applyStep, h]

theorem checkedAdd_some {w a b r : Nat} (h : checkedAdd w a b = some r) :
    r = a + b ∧ a + b < w := by
  unfold checkedAdd at h
  split at h <;> simp_all

theorem checkedMul_some {w a b r : Nat} (h : checkedMul w a b = some r) :
    r = a * b ∧ a * b < w := by
  unfold checkedMul at h
  split at h <;> simp_all

/-- Updating the record with key `w` (by a key-preserving function)
commutes with keyed lookup. -/
theorem find?_map_upd {α : Type} (key : α → Nat) (l : List α) (w w' : Nat) (f : α → α)
    (hf : ∀ a, key (f a) = key a) :
    (l.map (fun a => if key a == w then f a else a)).find? (fun a => key a == w')
      = (l.find? (fun a => key a == w')).map (fun a => if key a == w then f a else a) := by
  induction l with
  | nil => rfl
  | cons a l ih =>
    have hh : key (if key a == w then f a else a) = key a := by
      by_cases hw : key a = w <;> simp [hw, hf]
    simp only [List.map_cons]
    by_cases hw' : key a = w'
    · rw [List.find?_cons_of_pos, List.find?_cons_of_pos]
      · simp
      · simp [hw']
      · simp only [hh]
        simp [hw']
    · rw [List.find?_cons_of_neg, List.find?_cons_of_neg]
      · exact ih
      · simp [hw']
      · simp only [hh]
        simp [hw']

/-- A key-preserving in-place update leaves the key list unchanged. -/
theorem map_key_upd {α : Type} (key : α → Nat) (l : List α) (w : Nat) (f : α → α)
    (hf : ∀ a, key (f a) = key a) :
    (l.map (fun a => if key a == w then f a else a)).map key = l.map key := by
  induction l with
  | nil => rfl
  | cons a l ih =>
    have hh : key (if key a == w then f a else a) = key a := by
      by_cases hw : key a = w <;> simp [hw, hf]
    simp only [List.map_cons]
    rw [hh, ih]

/-! ## Success characterizations of the seven handlers -/

theorem doInitProtocol_ok {s : ChainState} {caller base : Nat} {s' : ChainState}
    (h : doInitProtocol s caller base = .ok s') :
    s.protocol = none ∧ s' = { s with protocol := some (freshProtocol caller base) } := by
  unfold doInitProtocol at h
  cases hp : s.protocol with
  | some p => rw [hp] at h; exact Except.noConfusion h
  | none =>
    rw [hp] at h
    simp only [Except.ok.injEq] at h
    exact ⟨rfl, h.symm⟩

theorem doRegisterAgent_ok {s : ChainState} {caller : Nat} {now : Int} {s' : ChainState}
    (h : doRegisterAgent s caller now = .ok s') :
    ∃ p, s.protocol = some p ∧ findAgent s caller = none ∧
      p.total_agents + 1 < U32 ∧
      p.total_clips_distributed + p.base_reward_unit < U64 ∧
      s' = { s with
        agents := freshAgent caller p.base_reward_unit now :: s.agents
        protocol := some { p with
          total_agents := p.total_agents + 1
          total_clips_distributed := p.total_clips_distributed + p.base_reward_unit } } := by
  unfold doRegisterAgent at h
  obtain ⟨p, hp, h⟩ := bind_ok_inv h
  obtain ⟨u, hu, h⟩ := bind_ok_inv h
  obtain ⟨ta, hta, h⟩ := bind_ok_inv h
  obtain ⟨tc, htc, h⟩ := bind_ok_inv h
  obtain ⟨hta1, hta2⟩ := checkedAdd_some (getOr_ok hta)
  obtain ⟨htc1, htc2⟩ := checkedAdd_some (getOr_ok htc)
  subst hta1
  subst htc1
  simp only [pure, Except.pure, Except.ok.injEq] at h
  exact ⟨p, getOr_ok hp, require_ok hu, hta2, htc2, h.symm⟩

theorem doRegisterWithInvite_ok {s : ChainState} {caller inviter code : Nat} {now : Int}
    {s' : ChainState} (h : doRegisterWithInvite s caller inviter code now = .ok s') :
    ∃ p ia ir, s.protocol = some p ∧ findAgent s caller = none ∧
      findAgent s inviter = some ia ∧ findInvite s ia.wallet = some ir ∧
      ia.wallet ≠ caller ∧ ir.is_active = true ∧
      ir.inviter_wallet = ia.wallet ∧ code = ia.wallet ∧ ir.invite_code = code ∧
      p.base_reward_unit * 3 < U64 ∧
      ia.clips_balance + p.base_reward_unit / 2 < U64 ∧
      ia.invites_sent + 1 < U32 ∧
      ir.invites_redeemed + 1 < U32 ∧
      p.total_agents + 1 < U32 ∧
      p.total_clips_distributed + p.base_reward_unit * 3 / 2 < U64 ∧
      p.total_clips_distributed + p.base_reward_unit * 3 / 2 + p.base_reward_unit / 2 < U64 ∧
      s' = { s with
        agents :=
          freshInvitedAgent caller (p.base_reward_unit * 3 / 2) ia.wallet now ::
          updAgents s.agents ia.wallet
            (fun a => { a with
              clips_balance := ia.clips_balance + p.base_reward_unit / 2
              invites_sent := ia.invites_sent + 1
              last_active_at := now })
        invites := updInvites s.invites ia.wallet
          (fun i => { i with invites_redeemed := ir.invites_redeemed + 1 })
        protocol := some { p with
          total_agents := p.total_agents + 1
          total_clips_distributed :=
            p.total_clips_distributed + p.base_reward_unit * 3 / 2 + p.base_reward_unit / 2 } } := by
  unfold doRegisterWithInvite at h
  obtain ⟨p, hp, h⟩ := bind_ok_inv h
  obtain ⟨u1, hu1, h⟩ := bind_ok_inv h
  obtain ⟨ia, hia, h⟩ := bind_ok_inv h
  obtain ⟨ir, hir, h⟩ := bind_ok_inv h
  obtain ⟨u2, hu2, h⟩ := bind_ok_inv h
  obtain ⟨u3, hu3, h⟩ := bind_ok_inv h
  obtain ⟨u4, hu4, h⟩ := bind_ok_inv h
  obtain ⟨u5, hu5, h⟩ := bind_ok_inv h
  obtain ⟨u6, hu6, h⟩ := bind_ok_inv h
  obtain ⟨m, hm, h⟩ := bind_ok_inv h
  obtain ⟨ibal, hibal, h⟩ := bind_ok_inv h
  obtain ⟨isent, hisent, h⟩ := bind_ok_inv h
  obtain ⟨ired, hired, h⟩ := bind_ok_inv h
  obtain ⟨ta, hta, h⟩ := bind_ok_inv h
  obtain ⟨tc1, htc1, h⟩ := bind_ok_inv h
  obtain ⟨tc2, htc2, h⟩ := bind_ok_inv h
  obtain ⟨hm1, hm2⟩ := checkedMul_some (getOr_ok hm)
  obtain ⟨hibal1, hibal2⟩ := checkedAdd_some (getOr_ok hibal)
  obtain ⟨hisent1, hisent2⟩ := checkedAdd_some (getOr_ok hisent)
  obtain ⟨hired1, hired2⟩ := checkedAdd_some (getOr_ok hired)
  obtain ⟨hta1, hta2⟩ := checkedAdd_some (getOr_ok hta)
  obtain ⟨htc11, htc12⟩ := checkedAdd_some (getOr_ok htc1)
  obtain ⟨htc21, htc22⟩ := checkedAdd_some (getOr_ok htc2)
  subst hm1
  subst hibal1
  subst hisent1
  subst hired1
  subst hta1
  subst htc21
  subst htc11
  simp only [pure, Except.pure, Except.ok.injEq] at h
  exact ⟨p, ia, ir, getOr_ok hp, require_ok hu1, getOr_ok hia, getOr_ok hir,
    require_ok hu2, require_ok hu3, require_ok hu4, require_ok hu5, require_ok hu6,
    hm2, hibal2, hisent2, hired2, hta2, htc12, htc22, h.symm⟩

theorem doCreateInvite_ok {s : ChainState} {caller : Nat} {now : Int} {s' : ChainState}
    (h : doCreateInvite s caller now = .ok s') :
    ∃ p a, s.protocol = some p ∧ findAgent s caller = some a ∧ a.wallet = caller ∧
      findInvite s caller = none ∧
      s' = { s with invites := freshInvite caller now :: s.invites } := by
  unfold doCreateInvite at h
  obtain ⟨p, hp, h⟩ := bind_ok_inv h
  obtain ⟨a, ha, h⟩ := bind_ok_inv h
  obtain ⟨u1, hu1, h⟩ := bind_ok_inv h
  obtain ⟨u2, hu2, h⟩ := bind_ok_inv h
  simp only [pure, Except.pure, Except.ok.injEq] at h
  exact ⟨p, a, getOr_ok hp, getOr_ok ha, require_ok hu1, require_ok hu2, h.symm⟩

theorem doCreateTask_ok {s : ChainState} {caller : Nat}
    {task_id title content_cid reward_clips max_claims min_tier required_task_id : Nat}
    {now : Int} {s' : ChainState}
    (h : doCreateTask s caller task_id title content_cid reward_clips max_claims min_tier
      required_task_id now = .ok s') :
    ∃ p, s.protocol = some p ∧ p.authority = caller ∧
      findTask s (task_id % U32) = none ∧
      (required_task_id % U32 ≠ NO_PREREQ_TASK_ID → required_task_id % U32 ≠ task_id % U32) ∧
      p.total_tasks + 1 < U32 ∧
      s' = { s with
        tasks := freshTask caller task_id title content_cid reward_clips max_claims
          min_tier required_task_id now :: s.tasks
        protocol := some { p with total_tasks := p.total_tasks + 1 } } := by
  unfold doCreateTask at h
  obtain ⟨p, hp, h⟩ := bind_ok_inv h
  obtain ⟨u1, hu1, h⟩ := bind_ok_inv h
  obtain ⟨u2, hu2, h⟩ := bind_ok_inv h
  obtain ⟨u3, hu3, h⟩ := bind_ok_inv h
  obtain ⟨tt, htt, h⟩ := bind_ok_inv h
  obtain ⟨htt1, htt2⟩ := checkedAdd_some (getOr_ok htt)
  subst htt1
  simp only [pure, Except.pure, Except.ok.injEq] at h
  refine ⟨p, getOr_ok hp, require_ok hu1, require_ok hu2, ?_, htt2, h.symm⟩
  intro hreq
  unfold requireNotSelfPrereq at hu3
  rw [if_pos hreq] at hu3
  exact require_ok hu3

theorem doDeactivateTask_ok {s : ChainState} {caller task_id : Nat} {s' : ChainState}
    (h : doDeactivateTask s caller task_id = .ok s') :
    ∃ p t, s.protocol = some p ∧ p.authority = caller ∧
      findTask s (task_id % U32) = some t ∧
      s' = { s with
        tasks := updTasks s.tasks (task_id % U32) (fun t => { t with is_active := false }) } := by
  unfold doDeactivateTask at h
  obtain ⟨p, hp, h⟩ := bind_ok_inv h
  obtain ⟨u1, hu1, h⟩ := bind_ok_inv h
  obtain ⟨t, ht, h⟩ := bind_ok_inv h
  simp only [pure, Except.pure, Except.ok.injEq] at h
  exact ⟨p, t, getOr_ok hp, require_ok hu1, getOr_ok ht, h.symm⟩

theorem doSubmitProof_ok {s : ChainState} {caller task_id proof_cid : Nat}
    {pa : Option SuppliedAccount} {now : Int} {s' : ChainState}
    (h : doSubmitProof s caller task_id proof_cid pa now = .ok s') :
    ∃ p task agent, s.protocol = some p ∧
      findTask s (task_id % U32) = some task ∧
      findAgent s caller = some agent ∧
      findClaim s (task_id % U32) caller = none ∧
      task.min_tier ≤ agent.efficiency_tier ∧
      prereqCheck task caller pa = .ok () ∧
      task.is_active = true ∧
      task.current_claims < task.max_claims ∧
      task.current_claims + 1 < U16 ∧
      agent.clips_balance + task.reward_clips < U64 ∧
      agent.tasks_completed + 1 < U32 ∧
      p.total_clips_distributed + task.reward_clips < U64 ∧
      s' = { s with
        tasks := updTasks s.tasks (task_id % U32)
          (fun t => { t with current_claims := task.current_claims + 1 })
        agents := updAgents s.agents caller
          (fun a => { a with
            clips_balance := agent.clips_balance + task.reward_clips
            tasks_completed := agent.tasks_completed + 1
            last_active_at := now })
        protocol := some { p with
          total_clips_distributed := p.total_clips_distributed + task.reward_clips }
        claims := freshClaim (task_id % U32) caller proof_cid task.reward_clips now ::
          s.claims } := by
  unfold doSubmitProof at h
  obtain ⟨p, hp, h⟩ := bind_ok_inv h
  obtain ⟨task, htk, h⟩ := bind_ok_inv h
  obtain ⟨agent, hag, h⟩ := bind_ok_inv h
  obtain ⟨u1, hu1, h⟩ := bind_ok_inv h
  obtain ⟨u2, hu2, h⟩ := bind_ok_inv h
  obtain ⟨u3, hu3, h⟩ := bind_ok_inv h
  obtain ⟨u4, hu4, h⟩ := bind_ok_inv h
  obtain ⟨u5, hu5, h⟩ := bind_ok_inv h
  obtain ⟨cc, hcc, h⟩ := bind_ok_inv h
  obtain ⟨bal, hbal, h⟩ := bind_ok_inv h
  obtain ⟨tcd, htcd, h⟩ := bind_ok_inv h
  obtain ⟨tcl, htcl, h⟩ := bind_ok_inv h
  obtain ⟨hcc1, hcc2⟩ := checkedAdd_some (getOr_ok hcc)
  obtain ⟨hbal1, hbal2⟩ := checkedAdd_some (getOr_ok hbal)
  obtain ⟨htcd1, htcd2⟩ := checkedAdd_some (getOr_ok htcd)
  obtain ⟨htcl1, htcl2⟩ := checkedAdd_some (getOr_ok htcl)
  subst hcc1
  subst hbal1
  subst htcd1
  subst htcl1
  simp only [pure, Except.pure, Except.ok.injEq] at h
  refine ⟨p, task, agent, getOr_ok hp, getOr_ok htk, getOr_ok hag, require_ok hu1,
    require_ok hu2, ?_, require_ok hu4, require_ok hu5, hcc2, hbal2, htcd2, htcl2, h.symm⟩
  cases u3
  exact hu3

/-! ## Lookup facts -/

theorem findAgent_some {s : ChainState} {w : Nat} {a : AgentAccount}
    (h : findAgent s w = some a) : a ∈ s.agents ∧ a.wallet = w := by
  refine ⟨List.mem_of_find?_eq_some h, ?_⟩
  have := List.find?_some h
  simpa using this

theorem findTask_some {s : ChainState} {k : Nat} {t : TaskRecord}
    (h : findTask s k = some t) : t ∈ s.tasks ∧ t.task_id = k := by
  refine ⟨List.mem_of_find?_eq_some h, ?_⟩
  have := List.find?_some h
  simpa using this

theorem findInvite_some {s : ChainState} {w : Nat} {iv : InviteRecord}
    (h : findInvite s w = some iv) : iv ∈ s.invites ∧ iv.inviter_wallet = w := by
  refine ⟨List.mem_of_find?_eq_some h, ?_⟩
  have := List.find?_some h
  simpa using this

theorem findClaim_some {s : ChainState} {k w : Nat} {c : ClaimRecord}
    (h : findClaim s k w = some c) : c ∈ s.claims ∧ c.task_id = k ∧ c.agent = w := by
  refine ⟨List.mem_of_find?_eq_some h, ?_⟩
  have := List.find?_some h
  simp at this
  exact this

theorem key_not_mem_of_find?_none {α : Type} (key : α → Nat) {l : List α} {k : Nat}
    (h : l.find? (fun a => key a == k) = none) : k ∉ l.map key := by
  intro hmem
  obtain ⟨a, ha, hka⟩ := List.mem_map.mp hmem
  have hna := List.find?_eq_none.mp h a ha
  simp [hka] at hna

theorem agentKey_not_mem {s : ChainState} {k : Nat} (h : findAgent s k = none) :
    k ∉ s.agents.map (fun a => a.wallet) :=
  key_not_mem_of_find?_none (fun a : AgentAccount => a.wallet) h

theorem taskKey_not_mem {s : ChainState} {k : Nat} (h : findTask s k = none) :
    k ∉ s.tasks.map (fun t => t.task_id) :=
  key_not_mem_of_find?_none (fun t : TaskRecord => t.task_id) h

theorem inviteKey_not_mem {s : ChainState} {k : Nat} (h : findInvite s k = none) :
    k ∉ s.invites.map (fun iv => iv.inviter_wallet) :=
  key_not_mem_of_find?_none (fun iv : InviteRecord => iv.inviter_wallet) h

theorem agentKeys_upd (l : List AgentAccount) (w : Nat) (f : AgentAccount → AgentAccount)
    (hf : ∀ a, (f a).wallet = a.wallet) :
    (updAgents l w f).map (fun a => a.wallet) = l.map (fun a => a.wallet) :=
  map_key_upd (fun a : AgentAccount => a.wallet) l w f hf

theorem taskKeys_upd (l : List TaskRecord) (w : Nat) (f : TaskRecord → TaskRecord)
    (hf : ∀ t, (f t).task_id = t.task_id) :
    (updTasks l w f).map (fun t => t.task_id) = l.map (fun t => t.task_id) :=
  map_key_upd (fun t : TaskRecord => t.task_id) l w f hf

theorem inviteKeys_upd (l : List InviteRecord) (w : Nat) (f : InviteRecord → InviteRecord)
    (hf : ∀ iv, (f iv).inviter_wallet = iv.inviter_wallet) :
    (updInvites l w f).map (fun iv => iv.inviter_wallet) = l.map (fun iv => iv.inviter_wallet) :=
  map_key_upd (fun iv : InviteRecord => iv.inviter_wallet) l w f hf

theorem findAgent_updAgents (l : List AgentAccount) (w w' : Nat)
    (f : AgentAccount → AgentAccount) (hf : ∀ a, (f a).wallet = a.wallet) :
    (updAgents l w f).find? (fun a => a.wallet == w')
      = (l.find? (fun a => a.wallet == w')).map (fun a => if a.wallet == w then f a else a) :=
  find?_map_upd (fun a : AgentAccount => a.wallet) l w w' f hf

theorem findTask_updTasks (l : List TaskRecord) (w w' : Nat)
    (f : TaskRecord → TaskRecord) (hf : ∀ t, (f t).task_id = t.task_id) :
    (updTasks l w f).find? (fun t => t.task_id == w')
      = (l.find? (fun t => t.task_id == w')).map (fun t => if t.task_id == w then f t else t) :=
  find?_map_upd (fun t : TaskRecord => t.task_id) l w w' f hf

theorem findInvite_updInvites (l : List InviteRecord) (w w' : Nat)
    (f : InviteRecord → InviteRecord) (hf : ∀ iv, (f iv).inviter_wallet = iv.inviter_wallet) :
    (updInvites l w f).find? (fun iv => iv.inviter_wallet == w')
      = (l.find? (fun iv => iv.inviter_wallet == w')).map
          (fun iv => if iv.inviter_wallet == w then f iv else iv) :=
  find?_map_upd (fun iv : InviteRecord => iv.inviter_wallet) l w w' f hf

theorem claimKey_not_mem {s : ChainState} {k w : Nat}
    (h : findClaim s k w = none) : (k, w) ∉ claimKeys s := by
  intro hmem
  obtain ⟨c, hc, hkc⟩ := List.mem_map.mp hmem
  have hna := List.find?_eq_none.mp h c hc
  simp only [Prod.mk.injEq] at hkc
  simp [hkc.1, hkc.2] at hna

/-! ## State invariants (well-formedness of reachable states) -/

theorem wf_step {s s' : ChainState} {i : Instruction} (hwf : WF s)
    (h : stepResult s i = .ok s') : WF s' := by
  obtain ⟨hag, htk, hcl, hin⟩ := hwf
  cases i with
  | initProtocol caller base =>
    obtain ⟨h1, h2⟩ := doInitProtocol_ok h
    subst h2
    exact ⟨hag, htk, hcl, hin⟩
  | registerAgent caller now =>
    obtain ⟨p, hp, hnone, hb1, hb2, h2⟩ := doRegisterAgent_ok h
    subst h2
    refine ⟨?_, htk, hcl, hin⟩
    simp only [List.map_cons]
    exact List.nodup_cons.mpr ⟨agentKey_not_mem hnone, hag⟩
  | registerAgentWithInvite caller inviter code now =>
    obtain ⟨p, ia, ir, hp, hnone, hia, hir, hself, hact, hiw, hcw, hicw,
      hb1, hb2, hb3, hb4, hb5, hb6, hb7, h2⟩ := doRegisterWithInvite_ok h
    subst h2
    refine ⟨?_, htk, hcl, ?_⟩
    · simp only [List.map_cons]
      rw [agentKeys_upd]
      · exact List.nodup_cons.mpr ⟨agentKey_not_mem hnone, hag⟩
      · intro a; rfl
    · rw [inviteKeys_upd]
      · exact hin
      · intro iv; rfl
  | createInvite caller now =>
    obtain ⟨p, a, hp, ha, haw, hnone, h2⟩ := doCreateInvite_ok h
    subst h2
    refine ⟨hag, htk, hcl, ?_⟩
    simp only [List.map_cons]
    exact List.nodup_cons.mpr ⟨inviteKey_not_mem hnone, hin⟩
  | createTask caller tid title cid reward maxc mint req now =>
    obtain ⟨p, hp, hauth, hnone, hself, hb, h2⟩ := doCreateTask_ok h
    subst h2
    refine ⟨hag, ?_, hcl, hin⟩
    simp only [List.map_cons]
    exact List.nodup_cons.mpr ⟨taskKey_not_mem hnone, htk⟩
  | deactivateTask caller tid =>
    obtain ⟨p, t, hp, hauth, ht, h2⟩ := doDeactivateTask_ok h
    subst h2
    refine ⟨hag, ?_, hcl, hin⟩
    rw [taskKeys_upd]
    · exact htk
    · intro t; rfl
  | submitProof caller tid pcid pa now =>
    obtain ⟨p, task, agent, hp, htask, hagent, hnone, htier, hpr, hactive, hcap,
      hb1, hb2, hb3, hb4, h2⟩ := doSubmitProof_ok h
    subst h2
    refine ⟨?_, ?_, ?_, hin⟩
    · rw [agentKeys_upd]
      · exact hag
      · intro a; rfl
    · rw [taskKeys_upd]
      · exact htk
      · intro t; rfl
    · simp only [claimKeys, List.map_cons]
      exact List.nodup_cons.mpr ⟨claimKey_not_mem hnone, hcl⟩

theorem tasksBounded_step {s s' : ChainState} {i : Instruction} (hwf : WF s)
    (hb : TasksBounded s) (h : stepResult s i = .ok s') : TasksBounded s' := by
  cases i with
  | initProtocol caller base =>
    obtain ⟨h1, h2⟩ := doInitProtocol_ok h
    subst h2; exact hb
  | registerAgent caller now =>
    obtain ⟨p, hp, hnone, hb1, hb2, h2⟩ := doRegisterAgent_ok h
    subst h2; exact hb
  | registerAgentWithInvite caller inviter code now =>
    obtain ⟨p, ia, ir, hp, hnone, hia, hir, hself, hact, hiw, hcw, hicw,
      hq1, hq2, hq3, hq4, hq5, hq6, hq7, h2⟩ := doRegisterWithInvite_ok h
    subst h2; exact hb
  | createInvite caller now =>
    obtain ⟨p, a, hp, ha, haw, hnone, h2⟩ := doCreateInvite_ok h
    subst h2; exact hb
  | createTask caller tid title cid reward maxc mint req now =>
    obtain ⟨p, hp, hauth, hnone, hself, hq, h2⟩ := doCreateTask_ok h
    subst h2
    intro t ht
    rcases List.mem_cons.mp ht with h0 | h0
    · subst h0; simp [freshTask]
    · exact hb t h0
  | deactivateTask caller tid =>
    obtain ⟨p, t0, hp, hauth, ht0, h2⟩ := doDeactivateTask_ok h
    subst h2
    intro t ht
    obtain ⟨t1, ht1, heq⟩ := List.mem_map.mp ht
    by_cases hk : t1.task_id = tid % U32
    · simp only [hk, beq_self_eq_true, if_pos] at heq
      subst heq
      exact hb t1 ht1
    · simp only [beq_iff_eq, hk, if_neg, not_false_iff] at heq
      subst heq
      exact hb t1 ht1
  | submitProof caller tid pcid pa now =>
    obtain ⟨p, task, agent, hp, htask, hagent, hnone, htier, hpr, hactive, hcap,
      hq1, hq2, hq3, hq4, h2⟩ := doSubmitProof_ok h
    subst h2
    intro t ht
    obtain ⟨t1, ht1, heq⟩ := List.mem_map.mp ht
    obtain ⟨htaskmem, htaskid⟩ := findTask_some htask
    by_cases hk : t1.task_id = tid % U32
    · simp only [hk, beq_self_eq_true, if_pos] at heq
      have ht1task : t1 = task := by
        refine List.inj_on_of_nodup_map hwf.2.1 ht1 htaskmem ?_
        rw [hk, htaskid]
      subst ht1task
      subst heq
      simpa using hcap
    · simp only [beq_iff_eq, hk, if_neg, not_false_iff] at heq
      subst heq
      exact hb t1 ht1

theorem invitesActive_step {s s' : ChainState} {i : Instruction}
    (ha : InvitesActive s) (h : stepResult s i = .ok s') : InvitesActive s' := by
  cases i with
  | initProtocol caller base =>
    obtain ⟨h1, h2⟩ := doInitProtocol_ok h
    subst h2; exact ha
  | registerAgent caller now =>
    obtain ⟨p, hp, hnone, hb1, hb2, h2⟩ := doRegisterAgent_ok h
    subst h2; exact ha
  | registerAgentWithInvite caller inviter code now =>
    obtain ⟨p, ia, ir, hp, hnone, hia, hir, hself, hact, hiw, hcw, hicw,
      hq1, hq2, hq3, hq4, hq5, hq6, hq7, h2⟩ := doRegisterWithInvite_ok h
    subst h2
    intro iv hiv
    obtain ⟨iv1, hiv1, heq⟩ := List.mem_map.mp hiv
    by_cases hk : iv1.inviter_wallet = ia.wallet
    · simp only [hk, beq_self_eq_true, if_pos] at heq
      subst heq
      exact ha iv1 hiv1
    · simp only [beq_iff_eq, hk, if_neg, not_false_iff] at heq
      subst heq
      exact ha iv1 hiv1
  | createInvite caller now =>
    obtain ⟨p, a, hp, hag, haw, hnone, h2⟩ := doCreateInvite_ok h
    subst h2
    intro iv hiv
    rcases List.mem_cons.mp hiv with h0 | h0
    · subst h0; rfl
    · exact ha iv h0
  | createTask caller tid title cid reward maxc mint req now =>
    obtain ⟨p, hp, hauth, hnone, hself, hq, h2⟩ := doCreateTask_ok h
    subst h2; exact ha
  | deactivateTask caller tid =>
    obtain ⟨p, t0, hp, hauth, ht0, h2⟩ := doDeactivateTask_ok h
    subst h2; exact ha
  | submitProof caller tid pcid pa now =>
    obtain ⟨p, task, agent, hp, htask, hagent, hnone, htier, hpr, hactive, hcap,
      hq1, hq2, hq3, hq4, h2⟩ := doSubmitProof_ok h
    subst h2; exact ha

/-- The combined invariant carried by every reachable state. -/
theorem reachable_inv {s : ChainState} (h : Reachable s) :
    WF s ∧ TasksBounded s ∧ InvitesActive s := by
  induction h with
  | empty =>
    refine ⟨⟨?_, ?_, ?_, ?_⟩, ?_, ?_⟩ <;> simp [emptyChain, claimKeys, TasksBounded, InvitesActive]
  | step hr hok ih =>
    exact ⟨wf_step ih.1 hok, tasksBounded_step ih.1 ih.2.1 hok, invitesActive_step ih.2.2 hok⟩

/-! ## Ledger accounting (counters vs. `run` history) -/

theorem applyStep_accounting (s : ChainState) (i : Instruction)
    (hP : protoTotalAgents s = s.agents.length) :
    protoTotalAgents (applyStep s i) = (applyStep s i).agents.length ∧
    (applyStep s i).agents.length = s.agents.length + agentsCreatedOf s i ∧
    protoTotalClips (applyStep s i) = protoTotalClips s + creditOf s i := by
  cases hres : stepResult s i with
  | error e =>
    rw [applyStep_err hres]
    refine ⟨hP, ?_, ?_⟩ <;> simp [agentsCreatedOf, creditOf, hres]
  | ok s' =>
    rw [applyStep_ok hres]
    cases i with
    | initProtocol caller base =>
      obtain ⟨h1, h2⟩ := doInitProtocol_ok hres
      subst h2
      simp only [protoTotalAgents, h1] at hP
      refine ⟨?_, ?_, ?_⟩ <;>
        simp [protoTotalAgents, protoTotalClips, freshProtocol, agentsCreatedOf, creditOf,
          opCredit, hres, h1, ← hP]
    | registerAgent caller now =>
      obtain ⟨p, hp, hnone, hq1, hq2, h2⟩ := doRegisterAgent_ok hres
      subst h2
      simp only [protoTotalAgents, hp] at hP
      refine ⟨?_, ?_, ?_⟩ <;>
        simp [protoTotalAgents, protoTotalClips, protoBase, agentsCreatedOf, creditOf,
          opCredit, hres, hp, hP]
    | registerAgentWithInvite caller inviter code now =>
      obtain ⟨p, ia, ir, hp, hnone, hia, hir, hself, hact, hiw, hcw, hicw,
        hq1, hq2, hq3, hq4, hq5, hq6, hq7, h2⟩ := doRegisterWithInvite_ok hres
      subst h2
      simp only [protoTotalAgents, hp] at hP
      refine ⟨?_, ?_, ?_⟩ <;>
        simp [protoTotalAgents, protoTotalClips, protoBase, agentsCreatedOf, creditOf,
          opCredit, hres, hp, hP, updAgents, Nat.add_assoc]
    | createInvite caller now =>
      obtain ⟨p, a, hp, ha, haw, hnone, h2⟩ := doCreateInvite_ok hres
      subst h2
      refine ⟨hP, ?_, ?_⟩ <;>
        simp [protoTotalAgents, protoTotalClips, agentsCreatedOf, creditOf, opCredit, hres]
    | createTask caller tid title cid reward maxc mint req now =>
      obtain ⟨p, hp, hauth, hnone, hself, hq, h2⟩ := doCreateTask_ok hres
      subst h2
      simp only [protoTotalAgents, hp] at hP
      refine ⟨?_, ?_, ?_⟩ <;>
        simp [protoTotalAgents, protoTotalClips, agentsCreatedOf, creditOf, opCredit,
          hres, hp, hP]
    | deactivateTask caller tid =>
      obtain ⟨p, t0, hp, hauth, ht0, h2⟩ := doDeactivateTask_ok hres
      subst h2
      simp only [protoTotalAgents, hp] at hP
      refine ⟨?_, ?_, ?_⟩ <;>
        simp [protoTotalAgents, protoTotalClips, agentsCreatedOf, creditOf, opCredit,
          hres, hp, hP, updTasks]
    | submitProof caller tid pcid pa now =>
      obtain ⟨p, task, agent, hp, htask, hagent, hnone, htier, hpr, hactive, hcap,
        hq1, hq2, hq3, hq4, h2⟩ := doSubmitProof_ok hres
      subst h2
      simp only [protoTotalAgents, hp] at hP
      refine ⟨?_, ?_, ?_⟩ <;>
        simp [protoTotalAgents, protoTotalClips, agentsCreatedOf, creditOf, opCredit,
          hres, hp, hP, htask, updAgents]

theorem run_accounting (ops : List Instruction) : ∀ s : ChainState,
    protoTotalAgents s = s.agents.length →
    protoTotalAgents (run s ops) = (run s ops).agents.length ∧
    (run s ops).agents.length = s.agents.length + agentsCreated s ops ∧
    protoTotalClips (run s ops) = protoTotalClips s + totalCredited s ops := by
  induction ops with
  | nil =>
    intro s hP
    refine ⟨hP, ?_, ?_⟩ <;> simp [run, agentsCreated, totalCredited]
  | cons i ops ih =>
    intro s hP
    obtain ⟨h1, h2, h3⟩ := applyStep_accounting s i hP
    obtain ⟨g1, g2, g3⟩ := ih (applyStep s i) h1
    refine ⟨g1, ?_, ?_⟩
    · show (run (applyStep s i) ops).agents.length = _
      rw [g2, h2]
      simp [agentsCreated]
      omega
    · show protoTotalClips (run (applyStep s i) ops) = _
      rw [g3, h3]
      simp [totalCredited]
      omega

/-- Which errors `register_agent_with_invite` can produce, and what must
hold of the state when the self-referral or inactive-invite rejection
fires.  The resolution failures and the `require!` chain are inspected
stage by stage in handler order. -/
theorem doRegisterWithInvite_err_inv {s : ChainState} {caller inviter code : Nat} {now : Int}
    {e : ErrorCode} (h : doRegisterWithInvite s caller inviter code now = .error e) :
    e = .AccountNotFound ∨ e = .AccountAlreadyInUse ∨ e = .InvalidInviteCode ∨
    e = .MathOverflow ∨
    (e = .SelfReferralNotAllowed ∧ findAgent s caller = none ∧
      ∃ ia, findAgent s inviter = some ia ∧ ia.wallet = caller) ∨
    (e = .InviteInactive ∧
      ∃ ia ir, findAgent s inviter = some ia ∧ findInvite s ia.wallet = some ir ∧
        ir.is_active = false) := by
  unfold doRegisterWithInvite at h
  rcases bind_err_inv h with h0 | ⟨p, hp, h⟩
  · exact Or.inl (getOr_err h0).2
  rcases bind_err_inv h with h0 | ⟨u1, hu1, h⟩
  · exact Or.inr (Or.inl (require_err h0).2)
  rcases bind_err_inv h with h0 | ⟨ia, hia, h⟩
  · exact Or.inl (getOr_err h0).2
  rcases bind_err_inv h with h0 | ⟨ir, hir, h⟩
  · exact Or.inl (getOr_err h0).2
  rcases bind_err_inv h with h0 | ⟨u2, hu2, h⟩
  · obtain ⟨hne, he⟩ := require_err h0
    exact Or.inr (Or.inr (Or.inr (Or.inr (Or.inl
      ⟨he, require_ok hu1, ia, getOr_ok hia, not_not.mp hne⟩))))
  rcases bind_err_inv h with h0 | ⟨u3, hu3, h⟩
  · obtain ⟨hne, he⟩ := require_err h0
    refine Or.inr (Or.inr (Or.inr (Or.inr (Or.inr
      ⟨he, ia, ir, getOr_ok hia, getOr_ok hir, ?_⟩))))
    simpa using hne
  rcases bind_err_inv h with h0 | ⟨u4, hu4, h⟩
  · exact Or.inr (Or.inr (Or.inl (require_err h0).2))
  rcases bind_err_inv h with h0 | ⟨u5, hu5, h⟩
  · exact Or.inr (Or.inr (Or.inl (require_err h0).2))
  rcases bind_err_inv h with h0 | ⟨u6, hu6, h⟩
  · exact Or.inr (Or.inr (Or.inl (require_err h0).2))
  rcases bind_err_inv h with h0 | ⟨m, hm, h⟩
  · exact Or.inr (Or.inr (Or.inr (Or.inl (getOr_err h0).2)))
  rcases bind_err_inv h with h0 | ⟨ibal, hibal, h⟩
  · exact Or.inr (Or.inr (Or.inr (Or.inl (getOr_err h0).2)))
  rcases bind_err_inv h with h0 | ⟨isent, hisent, h⟩
  · exact Or.inr (Or.inr (Or.inr (Or.inl (getOr_err h0).2)))
  rcases bind_err_inv h with h0 | ⟨ired, hired, h⟩
  · exact Or.inr (Or.inr (Or.inr (Or.inl (getOr_err h0).2)))
  rcases bind_err_inv h with h0 | ⟨ta, hta, h⟩
  · exact Or.inr (Or.inr (Or.inr (Or.inl (getOr_err h0).2)))
  rcases bind_err_inv h with h0 | ⟨tc1, htc1, h⟩
  · exact Or.inr (Or.inr (Or.inr (Or.inl (getOr_err h0).2)))
  rcases bind_err_inv h with h0 | ⟨tc2, htc2, h⟩
  · exact Or.inr (Or.inr (Or.inr (Or.inl (getOr_err h0).2)))
  exact Except.noConfusion h

/-! ## Reachability of the concrete scenario states -/

theorem reachable_sInit : Reachable sInit :=
  .step .empty (by decide : stepResult emptyChain (.initProtocol 0 1000) = .ok sInit)

theorem reachable_sReg : Reachable sReg :=
  .step reachable_sInit (by decide : stepResult sInit (.registerAgent 1 5) = .ok sReg)

theorem reachable_sInv : Reachable sInv :=
  .step reachable_sReg (by decide : stepResult sReg (.createInvite 1 6) = .ok sInv)

theorem reachable_sTwo : Reachable sTwo :=
  .step reachable_sInv
    (by decide : stepResult sInv (.registerAgentWithInvite 2 1 1 7) = .ok sTwo)

theorem reachable_sTask : Reachable sTask :=
  .step reachable_sTwo
    (by decide : stepResult sTwo (.createTask 0 10 77 88 500 1 0 NO_PREREQ_TASK_ID 8) = .ok sTask)

theorem reachable_sClaimed : Reachable sClaimed :=
  .step reachable_sTask
    (by decide : stepResult sTask (.submitProof 1 10 99 none 9) = .ok sClaimed)

theorem reachable_sT12 : Reachable sT12 :=
  .step reachable_sClaimed
    (by decide : stepResult sClaimed (.createTask 0 12 0 0 10 0 3 NO_PREREQ_TASK_ID 20) = .ok sT12)

theorem reachable_sT12d : Reachable sT12d :=
  .step reachable_sT12 (by decide : stepResult sT12 (.deactivateTask 0 12) = .ok sT12d)

theorem reachable_sT13 : Reachable sT13 :=
  .step reachable_sT12d
    (by decide : stepResult sT12d (.createTask 0 13 0 0 10 1 0 10 21) = .ok sT13)

theorem reachable_sT13d : Reachable sT13d :=
  .step reachable_sT13 (by decide : stepResult sT13 (.deactivateTask 0 13) = .ok sT13d)

theorem reachable_sT14 : Reachable sT14 :=
  .step reachable_sT13d
    (by decide : stepResult sT13d (.createTask 0 14 0 0 10 0 0 NO_PREREQ_TASK_ID 22) = .ok sT14)

theorem reachable_sFin : Reachable sFin :=
  .step reachable_sT14 (by decide : stepResult sT14 (.deactivateTask 0 14) = .ok sFin)

/-! ## Case analysis of the prerequisite verification -/

theorem prereqCheck_sentinel {task : TaskRecord} (caller : Nat) (pa : Option SuppliedAccount)
    (h : task.required_task_id = NO_PREREQ_TASK_ID) :
    prereqCheck task caller pa = .ok () := by
  simp [prereqCheck, h]

theorem prereqCheck_noAccount {task : TaskRecord} (caller : Nat)
    (hreq : task.required_task_id ≠ NO_PREREQ_TASK_ID) :
    prereqCheck task caller none = .error .MissingRequiredTaskProof := by
  simp [prereqCheck, hreq]

theorem prereqCheck_badKey {task : TaskRecord} (caller : Nat) {acc : SuppliedAccount}
    (hreq : task.required_task_id ≠ NO_PREREQ_TASK_ID)
    (hk : acc.key ≠ Addr.claimA task.required_task_id caller) :
    prereqCheck task caller (some acc) = .error .InvalidPrerequisiteAccount := by
  simp [prereqCheck, hreq, require_neg _ hk]

theorem prereqCheck_notOwned {task : TaskRecord} (caller : Nat) {acc : SuppliedAccount}
    (hreq : task.required_task_id ≠ NO_PREREQ_TASK_ID)
    (hk : acc.key = Addr.claimA task.required_task_id caller)
    (ho : acc.ownedByProgram = false) :
    prereqCheck task caller (some acc) = .error .MissingRequiredTaskProof := by
  simp [prereqCheck, hreq, require_pos _ hk, require_neg _ (by simp [ho] : ¬ acc.ownedByProgram = true)]

theorem prereqCheck_noData {task : TaskRecord} (caller : Nat) {acc : SuppliedAccount}
    (hreq : task.required_task_id ≠ NO_PREREQ_TASK_ID)
    (hk : acc.key = Addr.claimA task.required_task_id caller)
    (ho : acc.ownedByProgram = true) (hd : acc.data = none) :
    prereqCheck task caller (some acc) = .error .MissingRequiredTaskProof := by
  simp [prereqCheck, hreq, require_pos _ hk, require_pos _ ho, hd]

theorem prereqCheck_badFields {task : TaskRecord} (caller : Nat) {acc : SuppliedAccount}
    {c : ClaimRecord} (hreq : task.required_task_id ≠ NO_PREREQ_TASK_ID)
    (hk : acc.key = Addr.claimA task.required_task_id caller)
    (ho : acc.ownedByProgram = true) (hd : acc.data = some c)
    (hbad : c.task_id ≠ task.required_task_id ∨ c.agent ≠ caller) :
    prereqCheck task caller (some acc) = .error .InvalidPrerequisiteAccount := by
  by_cases hct : c.task_id = task.required_task_id
  · rcases hbad with hbad | hbad
    · exact absurd hct hbad
    · simp [prereqCheck, hreq, require_pos _ hk, require_pos _ ho, hd,
        require_pos _ hct, require_neg _ hbad]
  · simp [prereqCheck, hreq, require_pos _ hk, require_pos _ ho, hd, require_neg _ hct]

/-- When the resolution phase and the tier check pass, a failing
prerequisite verification aborts `submit_proof` with exactly its error. -/
theorem submitProof_prereq_error {s : ChainState} {caller tid pcid : Nat}
    {pa : Option SuppliedAccount} {now : Int} {p : ProtocolState} {task : TaskRecord}
    {agent : AgentAccount} {e : ErrorCode}
    (hp : s.protocol = some p) (ht : findTask s (tid % U32) = some task)
    (ha : findAgent s caller = some agent)
    (hc : findClaim s (tid % U32) caller = none)
    (htier : task.min_tier ≤ agent.efficiency_tier)
    (hpr : prereqCheck task caller pa = .error e) :
    stepResult s (.submitProof caller tid pcid pa now) = .error e := by
  simp only [stepResult, doSubmitProof, hp, ht, ha, getOr_some, ok_bind,
    require_pos _ hc, require_pos _ htier, hpr, error_bind]

/-! ## The claims -/

/-- C1: for every (task, agent) pair at most one Claim record can ever
exist: in every reachable state the (task_id, agent) keys of the claim
records are pairwise distinct, and when a Claim for the pair already
exists a second `submit_proof` for the same pair cannot succeed, commits
no state change, and — when the protocol, task and agent accounts
resolve — fails with the creation conflict at the already-occupied
derived claim address. -/
theorem spec_c1_claim_unique (s : ChainState) (caller tid pcid : Nat)
    (pa : Option SuppliedAccount) (now : Int) (c : ClaimRecord)
    (hr : Reachable s) (hc : findClaim s (tid % U32) caller = some c) :
    (claimKeys s).Nodup ∧
    (∀ s', stepResult s (.submitProof caller tid pcid pa now) ≠ .ok s') ∧
    applyStep s (.submitProof caller tid pcid pa now) = s ∧
    (∀ p task agent, s.protocol = some p → findTask s (tid % U32) = some task →
      findAgent s caller = some agent →
      stepResult s (.submitProof caller tid pcid pa now) = .error .AccountAlreadyInUse) := by
  have hno : ∀ s', stepResult s (.submitProof caller tid pcid pa now) ≠ .ok s' := by
    intro s' hok
    obtain ⟨p, task, agent, hp, ht, ha, hnone, _⟩ := doSubmitProof_ok hok
    rw [hnone] at hc
    exact Option.noConfusion hc
  refine ⟨(reachable_inv hr).1.2.2.1, hno, ?_, ?_⟩
  · cases hres : stepResult s (.submitProof caller tid pcid pa now) with
    | ok s' => exact absurd hres (hno s')
    | error e => exact applyStep_err hres
  · intro p task agent hp ht ha
    simp only [stepResult, doSubmitProof, hp, ht, ha, getOr_some, ok_bind,
      require_neg _ (by simp [hc] : ¬ findClaim s (tid % U32) caller = none), error_bind]

/-- Witness for C1: at the reachable state `sClaimed` the claim for
(task 10, agent 1) exists; re-submitting is rejected with the creation
conflict and changes nothing. -/
theorem spec_c1_claim_unique_witness :
    ((claimKeys sClaimed).Nodup ∧
     (∀ s', stepResult sClaimed (.submitProof 1 10 99 none 10) ≠ .ok s') ∧
     applyStep sClaimed (.submitProof 1 10 99 none 10) = sClaimed ∧
     (∀ p task agent, sClaimed.protocol = some p →
       findTask sClaimed (10 % U32) = some task → findAgent sClaimed 1 = some agent →
       stepResult sClaimed (.submitProof 1 10 99 none 10) = .error .AccountAlreadyInUse)) ∧
    stepResult sClaimed (.submitProof 1 10 99 none 10) = .error .AccountAlreadyInUse :=
  ⟨spec_c1_claim_unique sClaimed 1 10 99 none 10 (freshClaim 10 1 99 500 9)
      reachable_sClaimed (by decide),
   by decide⟩

/-- C2: starting from `initialize`, after any instruction sequence
`Protocol.total_agents` equals the number of Agent records successfully
created (equivalently, the number of Agent records in existence — agents
are never destroyed), and `Protocol.total_clips_distributed` equals the
sum of all rewards actually credited along the history (base
registration rewards, invite-path invitee rewards plus inviter bonuses,
and task rewards — see `opCredit`). -/
theorem spec_c2_ledger_counters (auth base : Nat) (s0 : ChainState) (ops : List Instruction)
    (h0 : stepResult emptyChain (.initProtocol auth base) = .ok s0) :
    protoTotalAgents (run s0 ops) = (run s0 ops).agents.length ∧
    (run s0 ops).agents.length = agentsCreated s0 ops ∧
    protoTotalClips (run s0 ops) = totalCredited s0 ops := by
  simp only [stepResult] at h0
  obtain ⟨h1, h2⟩ := doInitProtocol_ok h0
  subst h2
  have hP : protoTotalAgents { emptyChain with protocol := some (freshProtocol auth base) }
      = ({ emptyChain with
            protocol := some (freshProtocol auth base) } : ChainState).agents.length := by
    simp [protoTotalAgents, emptyChain, freshProtocol]
  obtain ⟨g1, g2, g3⟩ := run_accounting ops _ hP
  refine ⟨g1, ?_, ?_⟩
  · rw [g2]
    simp [emptyChain]
  · rw [g3]
    simp [protoTotalClips, emptyChain, freshProtocol]

/-- Witness for C2: the concrete five-instruction history ends with
2 agents and 3500 clips (1000 base + 1500 invitee + 500 bonus + 500 task
reward), and the counters agree with the history. -/
theorem spec_c2_ledger_counters_witness :
    (protoTotalAgents (run sInit c2ops) = (run sInit c2ops).agents.length ∧
     (run sInit c2ops).agents.length = agentsCreated sInit c2ops ∧
     protoTotalClips (run sInit c2ops) = totalCredited sInit c2ops) ∧
    protoTotalClips (run sInit c2ops) = 3500 ∧
    protoTotalAgents (run sInit c2ops) = 2 :=
  ⟨spec_c2_ledger_counters 0 1000 sInit c2ops (by decide), by decide, by decide⟩

/-- C3: in every reachable state every task satisfies
`current_claims <= max_claims`; a successful `submit_proof` requires
`current_claims < max_claims` before the transition; and when all the
earlier checks pass but the task is at capacity, `submit_proof` rejects
with `TaskFullyClaimed`. -/
theorem spec_c3_capacity (s : ChainState) (hr : Reachable s) :
    (∀ t ∈ s.tasks, t.current_claims ≤ t.max_claims) ∧
    (∀ caller tid pcid pa now s',
      stepResult s (.submitProof caller tid pcid pa now) = .ok s' →
      ∃ task, findTask s (tid % U32) = some task ∧
        task.current_claims < task.max_claims) ∧
    (∀ caller tid pcid pa now p task agent,
      s.protocol = some p → findTask s (tid % U32) = some task →
      findAgent s caller = some agent → findClaim s (tid % U32) caller = none →
      task.min_tier ≤ agent.efficiency_tier → prereqCheck task caller pa = .ok () →
      task.is_active = true → ¬ task.current_claims < task.max_claims →
      stepResult s (.submitProof caller tid pcid pa now) = .error .TaskFullyClaimed) := by
  refine ⟨(reachable_inv hr).2.1, ?_, ?_⟩
  · intro caller tid pcid pa now s' hok
    obtain ⟨p, task, agent, hp, ht, ha, hnone, htier, hpr, hact, hcap, _⟩ :=
      doSubmitProof_ok hok
    exact ⟨task, ht, hcap⟩
  · intro caller tid pcid pa now p task agent hp ht ha hnone htier hpr hact hcap
    simp only [stepResult, doSubmitProof, hp, ht, ha, getOr_some, ok_bind,
      require_pos _ hnone, require_pos _ htier, hpr, require_pos _ hact,
      require_neg _ hcap, error_bind]

/-- Witness for C3: task 10 has `max_claims = 1`; agent 1's submit-proof
succeeded (state `sClaimed`), and a second submit-proof by the different
agent 2 is rejected with `TaskFullyClaimed`. -/
theorem spec_c3_capacity_witness :
    (∀ t ∈ sClaimed.tasks, t.current_claims ≤ t.max_claims) ∧
    stepResult sClaimed (.submitProof 2 10 7 none 11) = .error .TaskFullyClaimed ∧
    stepResult sTask (.submitProof 1 10 99 none 9) = .ok sClaimed :=
  ⟨(spec_c3_capacity sClaimed reachable_sClaimed).1,
   (spec_c3_capacity sClaimed reachable_sClaimed).2.2 2 10 7 none 11
     ⟨1, 0, 1000, 2, 1, 3500, false⟩
     ⟨0, 10, 0, 77, 88, 500, 1, 1, true, 8, 0, NO_PREREQ_TASK_ID⟩
     ⟨1, 2, 1500, 0, 0, 7, 7, 0, 1, 1⟩
     (by decide) (by decide) (by decide) (by decide) (by decide) (by decide)
     (by decide) (by decide),
   by decide⟩

/-- C4: a transition containing a checked arithmetic operation that
would wrap fails with `MathOverflow` and commits nothing.  One part per
arithmetic-bearing transition, each covering every checked operation of
its handler: `register_agent` (agent counter, clip counter),
`register_agent_with_invite` (the `base*3` multiply, inviter balance,
`invites_sent`, `invites_redeemed`, agent counter, and both clip-counter
additions), `create_task` (task counter), and `submit_proof`
(`current_claims`, agent balance, `tasks_completed`, clip counter).
`initialize`, `create_invite` and `deactivate_task` perform no checked
arithmetic. -/
theorem spec_c4_overflow_atomicity :
    (∀ (s : ChainState) (caller : Nat) (now : Int) (p : ProtocolState),
      s.protocol = some p → findAgent s caller = none →
      (¬ p.total_agents + 1 < U32 ∨
       ¬ p.total_clips_distributed + p.base_reward_unit < U64) →
      stepResult s (.registerAgent caller now) = .error .MathOverflow ∧
      applyStep s (.registerAgent caller now) = s) ∧
    (∀ (s : ChainState) (caller inviter code : Nat) (now : Int)
       (p : ProtocolState) (ia : AgentAccount) (ir : InviteRecord),
      s.protocol = some p → findAgent s caller = none → findAgent s inviter = some ia →
      findInvite s ia.wallet = some ir → ia.wallet ≠ caller → ir.is_active = true →
      ir.inviter_wallet = ia.wallet → code = ia.wallet → ir.invite_code = code →
      (¬ p.base_reward_unit * 3 < U64 ∨
       ¬ ia.clips_balance + p.base_reward_unit / 2 < U64 ∨
       ¬ ia.invites_sent + 1 < U32 ∨
       ¬ ir.invites_redeemed + 1 < U32 ∨
       ¬ p.total_agents + 1 < U32 ∨
       ¬ p.total_clips_distributed + p.base_reward_unit * 3 / 2 < U64 ∨
       ¬ p.total_clips_distributed + p.base_reward_unit * 3 / 2 + p.base_reward_unit / 2
           < U64) →
      stepResult s (.registerAgentWithInvite caller inviter code now) = .error .MathOverflow ∧
      applyStep s (.registerAgentWithInvite caller inviter code now) = s) ∧
    (∀ (s : ChainState) (caller tid title cid reward maxc mint req : Nat) (now : Int)
       (p : ProtocolState),
      s.protocol = some p → p.authority = caller → findTask s (tid % U32) = none →
      (req % U32 ≠ NO_PREREQ_TASK_ID → req % U32 ≠ tid % U32) →
      ¬ p.total_tasks + 1 < U32 →
      stepResult s (.createTask caller tid title cid reward maxc mint req now)
        = .error .MathOverflow ∧
      applyStep s (.createTask caller tid title cid reward maxc mint req now) = s) ∧
    (∀ (s : ChainState) (caller tid pcid : Nat) (pa : Option SuppliedAccount) (now : Int)
       (p : ProtocolState) (task : TaskRecord) (agent : AgentAccount),
      s.protocol = some p → findTask s (tid % U32) = some task →
      findAgent s caller = some agent → findClaim s (tid % U32) caller = none →
      task.min_tier ≤ agent.efficiency_tier → prereqCheck task caller pa = .ok () →
      task.is_active = true → task.current_claims < task.max_claims →
      (¬ task.current_claims + 1 < U16 ∨
       ¬ agent.clips_balance + task.reward_clips < U64 ∨
       ¬ agent.tasks_completed + 1 < U32 ∨
       ¬ p.total_clips_distributed + task.reward_clips < U64) →
      stepResult s (.submitProof caller tid pcid pa now) = .error .MathOverflow ∧
      applyStep s (.submitProof caller tid pcid pa now) = s) := by
  refine ⟨?_, ?_, ?_, ?_⟩
  · intro s caller now p hp hnone hov
    have hstep : stepResult s (.registerAgent caller now) = .error .MathOverflow := by
      simp only [stepResult, doRegisterAgent, hp, getOr_some, ok_bind, require_pos _ hnone]
      cases hta : checkedAdd U32 p.total_agents 1 with
      | none => simp
      | some ta =>
        obtain ⟨hta1, hta2⟩ := checkedAdd_some hta
        simp only [hta, getOr_some, ok_bind]
        cases htc : checkedAdd U64 p.total_clips_distributed p.base_reward_unit with
        | none => simp
        | some tc =>
          obtain ⟨htc1, htc2⟩ := checkedAdd_some htc
          rcases hov with hov | hov
          · exact absurd hta2 hov
          · exact absurd htc2 hov
    exact ⟨hstep, applyStep_err hstep⟩
  · intro s caller inviter code now p ia ir hp hnone hia hir hself hact hiw hcw hicw hov
    have hstep : stepResult s (.registerAgentWithInvite caller inviter code now)
        = .error .MathOverflow := by
      simp only [stepResult, doRegisterWithInvite, hp, hia, hir, getOr_some, ok_bind,
        require_pos _ hnone, require_pos _ hself, require_pos _ hact, require_pos _ hiw,
        require_pos _ hcw, require_pos _ hicw]
      cases hm : checkedMul U64 p.base_reward_unit 3 with
      | none => simp
      | some m =>
        obtain ⟨hm1, hm2⟩ := checkedMul_some hm
        subst hm1
        simp only [hm, getOr_some, ok_bind]
        cases hibal : checkedAdd U64 ia.clips_balance (p.base_reward_unit / 2) with
        | none => simp
        | some ibal =>
          obtain ⟨hibal1, hibal2⟩ := checkedAdd_some hibal
          simp only [hibal, getOr_some, ok_bind]
          cases hisent : checkedAdd U32 ia.invites_sent 1 with
          | none => simp
          | some isent =>
            obtain ⟨hisent1, hisent2⟩ := checkedAdd_some hisent
            simp only [hisent, getOr_some, ok_bind]
            cases hired : checkedAdd U32 ir.invites_redeemed 1 with
            | none => simp
            | some ired =>
              obtain ⟨hired1, hired2⟩ := checkedAdd_some hired
              simp only [hired, getOr_some, ok_bind]
              cases hta : checkedAdd U32 p.total_agents 1 with
              | none => simp
              | some ta =>
                obtain ⟨hta1, hta2⟩ := checkedAdd_some hta
                simp only [hta, getOr_some, ok_bind]
                cases htc1 : checkedAdd U64 p.total_clips_distributed
                    (p.base_reward_unit * 3 / 2) with
                | none => simp
                | some tc1 =>
                  obtain ⟨htc11, htc12⟩ := checkedAdd_some htc1
                  subst htc11
                  simp only [htc1, getOr_some, ok_bind]
                  cases htc2 : checkedAdd U64
                      (p.total_clips_distributed + p.base_reward_unit * 3 / 2)
                      (p.base_reward_unit / 2) with
                  | none => simp
                  | some tc2 =>
                    obtain ⟨htc21, htc22⟩ := checkedAdd_some htc2
                    rcases hov with hov | hov | hov | hov | hov | hov | hov
                    · exact absurd hm2 hov
                    · exact absurd hibal2 hov
                    · exact absurd hisent2 hov
                    · exact absurd hired2 hov
                    · exact absurd hta2 hov
                    · exact absurd htc12 hov
                    · exact absurd htc22 hov
    exact ⟨hstep, applyStep_err hstep⟩
  · intro s caller tid title cid reward maxc mint req now p hp hauth hfree hselfp hov
    have hok : requireNotSelfPrereq tid req = .ok () := by
      unfold requireNotSelfPrereq
      by_cases hreq : req % U32 ≠ NO_PREREQ_TASK_ID
      · rw [if_pos hreq]
        exact require_pos _ (hselfp hreq)
      · rw [if_neg hreq]
        exact pure_ok ()
    have hstep : stepResult s (.createTask caller tid title cid reward maxc mint req now)
        = .error .MathOverflow := by
      simp only [stepResult, doCreateTask, hp, getOr_some, ok_bind, require_pos _ hauth,
        require_pos _ hfree, hok]
      rw [checkedAdd_none hov]
      simp
    exact ⟨hstep, applyStep_err hstep⟩
  · intro s caller tid pcid pa now p task agent hp ht ha hc htier hpr hact hcap hov
    have hstep : stepResult s (.submitProof caller tid pcid pa now)
        = .error .MathOverflow := by
      simp only [stepResult, doSubmitProof, hp, ht, ha, getOr_some, ok_bind,
        require_pos _ hc, require_pos _ htier, hpr, require_pos _ hact, require_pos _ hcap]
      cases hcc : checkedAdd U16 task.current_claims 1 with
      | none => simp
      | some cc =>
        obtain ⟨hcc1, hcc2⟩ := checkedAdd_some hcc
        simp only [hcc, getOr_some, ok_bind]
        cases hbal : checkedAdd U64 agent.clips_balance task.reward_clips with
        | none => simp
        | some bal =>
          obtain ⟨hbal1, hbal2⟩ := checkedAdd_some hbal
          simp only [hbal, getOr_some, ok_bind]
          cases htcd : checkedAdd U32 agent.tasks_completed 1 with
          | none => simp
          | some tcd =>
            obtain ⟨htcd1, htcd2⟩ := checkedAdd_some htcd
            simp only [htcd, getOr_some, ok_bind]
            cases htcl : checkedAdd U64 p.total_clips_distributed task.reward_clips with
            | none => simp
            | some tcl =>
              obtain ⟨htcl1, htcl2⟩ := checkedAdd_some htcl
              rcases hov with hov | hov | hov | hov
              · exact absurd hcc2 hov
              · exact absurd hbal2 hov
              · exact absurd htcd2 hov
              · exact absurd htcl2 hov
    exact ⟨hstep, applyStep_err hstep⟩

/-- Witness for C4, exercising all four parts: at `sOv3` the agent
counter is at `2^32 - 1`, so `register_agent` overflows it; at `sOv2`
the inviter balance is at `2^64 - 1`, so the inviter bonus overflows;
at `sOv4` the task counter is at `2^32 - 1`, so `create_task` overflows
it; at `sOv` the protocol clip counter is at `2^64 - 1`, so a passing
submit-proof overflows it.  All four reject with `MathOverflow` and
change nothing. -/
theorem spec_c4_overflow_atomicity_witness :
    (stepResult sOv3 (.registerAgent 5 0) = .error .MathOverflow ∧
     applyStep sOv3 (.registerAgent 5 0) = sOv3) ∧
    (stepResult sOv2 (.registerAgentWithInvite 2 1 1 0) = .error .MathOverflow ∧
     applyStep sOv2 (.registerAgentWithInvite 2 1 1 0) = sOv2) ∧
    (stepResult sOv4 (.createTask 0 3 0 0 5 1 0 NO_PREREQ_TASK_ID 0) = .error .MathOverflow ∧
     applyStep sOv4 (.createTask 0 3 0 0 5 1 0 NO_PREREQ_TASK_ID 0) = sOv4) ∧
    (stepResult sOv (.submitProof 1 10 0 none 0) = .error .MathOverflow ∧
     applyStep sOv (.submitProof 1 10 0 none 0) = sOv) :=
  ⟨spec_c4_overflow_atomicity.1 sOv3 5 0 pOv3 (by decide) (by decide) (by decide),
   spec_c4_overflow_atomicity.2.1 sOv2 2 1 1 0 ⟨1, 0, 1000, 1, 0, 0, false⟩ iaOv ivOv
     (by decide) (by decide) (by decide) (by decide) (by decide) (by decide) (by decide)
     (by decide) (by decide) (by decide),
   spec_c4_overflow_atomicity.2.2.1 sOv4 0 3 0 0 5 1 0 NO_PREREQ_TASK_ID 0 pOv4
     (by decide) (by decide) (by decide) (by decide) (by decide),
   spec_c4_overflow_atomicity.2.2.2 sOv 1 10 0 none 0 pOv tOv aOv (by decide) (by decide)
     (by decide) (by decide) (by decide) (by decide) (by decide) (by decide) (by decide)⟩

/-- C5: the prerequisite verification of `submit_proof`.  When the
task's `required_task_id` is the sentinel, no prerequisite account is
required and the result does not depend on the supplied account at all.
Otherwise: a missing account, an account not owned by the program (at
the right address), or undeserializable data yield
`MissingRequiredTaskProof`; an address differing from the re-derived
claim PDA, or stored `task_id`/`agent` fields that do not match the
(required_task_id, caller) pair, yield `InvalidPrerequisiteAccount`. -/
theorem spec_c5_prereq_verification (s : ChainState) (caller tid pcid : Nat) (now : Int)
    (p : ProtocolState) (task : TaskRecord) (agent : AgentAccount)
    (hp : s.protocol = some p) (ht : findTask s (tid % U32) = some task)
    (ha : findAgent s caller = some agent)
    (hc : findClaim s (tid % U32) caller = none)
    (htier : task.min_tier ≤ agent.efficiency_tier) :
    (task.required_task_id = NO_PREREQ_TASK_ID →
      ∀ pa, stepResult s (.submitProof caller tid pcid pa now)
        = stepResult s (.submitProof caller tid pcid none now)) ∧
    (task.required_task_id ≠ NO_PREREQ_TASK_ID →
      stepResult s (.submitProof caller tid pcid none now)
          = .error .MissingRequiredTaskProof ∧
      (∀ acc : SuppliedAccount, acc.key ≠ Addr.claimA task.required_task_id caller →
        stepResult s (.submitProof caller tid pcid (some acc) now)
          = .error .InvalidPrerequisiteAccount) ∧
      (∀ acc : SuppliedAccount, acc.key = Addr.claimA task.required_task_id caller →
        acc.ownedByProgram = false →
        stepResult s (.submitProof caller tid pcid (some acc) now)
          = .error .MissingRequiredTaskProof) ∧
      (∀ acc : SuppliedAccount, acc.key = Addr.claimA task.required_task_id caller →
        acc.ownedByProgram = true → acc.data = none →
        stepResult s (.submitProof caller tid pcid (some acc) now)
          = .error .MissingRequiredTaskProof) ∧
      (∀ (acc : SuppliedAccount) (c : ClaimRecord),
        acc.key = Addr.claimA task.required_task_id caller →
        acc.ownedByProgram = true → acc.data = some c →
        (c.task_id ≠ task.required_task_id ∨ c.agent ≠ caller) →
        stepResult s (.submitProof caller tid pcid (some acc) now)
          = .error .InvalidPrerequisiteAccount)) := by
  constructor
  · intro hsent pa
    simp only [stepResult, doSubmitProof, hp, ht, ha, getOr_some, ok_bind,
      require_pos _ hc, require_pos _ htier,
      prereqCheck_sentinel caller pa hsent, prereqCheck_sentinel caller none hsent]
  · intro hreq
    refine ⟨?_, ?_, ?_, ?_, ?_⟩
    · exact submitProof_prereq_error hp ht ha hc htier (prereqCheck_noAccount caller hreq)
    · intro acc hk
      exact submitProof_prereq_error hp ht ha hc htier (prereqCheck_badKey caller hreq hk)
    · intro acc hk ho
      exact submitProof_prereq_error hp ht ha hc htier
        (prereqCheck_notOwned caller hreq hk ho)
    · intro acc hk ho hd
      exact submitProof_prereq_error hp ht ha hc htier
        (prereqCheck_noData caller hreq hk ho hd)
    · intro acc c hk ho hd hbad
      exact submitProof_prereq_error hp ht ha hc htier
        (prereqCheck_badFields caller hreq hk ho hd hbad)

/-- Witness for C5 at `sT13`: task 13 requires task 10; agent 1 holds
the claim for task 10.  Each branch of the verification is exercised:
missing account, forged address, foreign owner, undeserializable data,
mismatched stored fields — and for the no-prerequisite task 10 the
supplied account is ignored entirely. -/
theorem spec_c5_prereq_verification_witness :
    stepResult sT13 (.submitProof 2 10 0 (some ⟨Addr.otherA 5, false, none⟩) 30)
        = stepResult sT13 (.submitProof 2 10 0 none 30) ∧
    stepResult sT13 (.submitProof 1 13 0 none 30) = .error .MissingRequiredTaskProof ∧
    stepResult sT13
        (.submitProof 1 13 0 (some ⟨Addr.claimA 10 2, true, some (freshClaim 10 1 99 500 9)⟩) 30)
        = .error .InvalidPrerequisiteAccount ∧
    stepResult sT13 (.submitProof 1 13 0 (some ⟨Addr.claimA 10 1, false, none⟩) 30)
        = .error .MissingRequiredTaskProof ∧
    stepResult sT13 (.submitProof 1 13 0 (some ⟨Addr.claimA 10 1, true, none⟩) 30)
        = .error .MissingRequiredTaskProof ∧
    stepResult sT13 (.submitProof 1 13 0 (some ⟨Addr.claimA 10 1, true, some ⟨1, 11, 1, 0, 0, 0⟩⟩) 30)
        = .error .InvalidPrerequisiteAccount := by
  have main := spec_c5_prereq_verification sT13 1 13 0 30
    ⟨1, 0, 1000, 2, 3, 3500, false⟩ ⟨0, 13, 0, 0, 0, 10, 1, 0, true, 21, 0, 10⟩
    ⟨1, 1, 2000, 0, 1, 5, 9, 1, 0, 0⟩
    (by decide) (by decide) (by decide) (by decide) (by decide)
  have hsent := spec_c5_prereq_verification sT13 2 10 0 30
    ⟨1, 0, 1000, 2, 3, 3500, false⟩
    ⟨0, 10, 0, 77, 88, 500, 1, 1, true, 8, 0, NO_PREREQ_TASK_ID⟩
    ⟨1, 2, 1500, 0, 0, 7, 7, 0, 1, 1⟩
    (by decide) (by decide) (by decide) (by decide) (by decide)
  obtain ⟨hB, hC, hD, hE, hF⟩ := main.2 (by decide)
  exact ⟨hsent.1 (by decide) (some ⟨Addr.otherA 5, false, none⟩), hB,
    hC ⟨Addr.claimA 10 2, true, some (freshClaim 10 1 99 500 9)⟩ (by decide),
    hD ⟨Addr.claimA 10 1, false, none⟩ (by decide) (by decide),
    hE ⟨Addr.claimA 10 1, true, none⟩ (by decide) (by decide) (by decide),
    hF ⟨Addr.claimA 10 1, true, some ⟨1, 11, 1, 0, 0, 0⟩⟩ ⟨1, 11, 1, 0, 0, 0⟩
      (by decide) (by decide) (by decide) (by decide)⟩

/-- C6 (code bug in `create_task`): `initialize`, both registration
paths, `create_invite` and `submit_proof` all stamp their records with
`ACCOUNT_LAYOUT_V1 = 1`, but the `create_task` handler never assigns
`layout_version` (it does not even import `ACCOUNT_LAYOUT_V1`), so the
Task record keeps the zero-initialized version byte: `0`, not `1`. -/
theorem spec_c6_task_layout_version :
    (findTask sTask 10).map (fun t => t.layout_version) = some 0 ∧
    (sInit.protocol).map (fun p => p.layout_version) = some ACCOUNT_LAYOUT_V1 ∧
    (findAgent sReg 1).map (fun a => a.layout_version) = some ACCOUNT_LAYOUT_V1 ∧
    (findAgent sTwo 2).map (fun a => a.layout_version) = some ACCOUNT_LAYOUT_V1 ∧
    (findInvite sInv 1).map (fun iv => iv.layout_version) = some ACCOUNT_LAYOUT_V1 ∧
    (findClaim sClaimed 10 1).map (fun c => c.layout_version) = some ACCOUNT_LAYOUT_V1 ∧
    (0 : Nat) ≠ ACCOUNT_LAYOUT_V1 := by decide

/-- C7: a successful `register_agent_with_invite` creates the new agent
with `clips_balance = base_reward_unit * 3 / 2` (truncating integer
division), credits the inviter with `base_reward_unit / 2`, and raises
`total_clips_distributed` by exactly the sum of the two rewards. -/
theorem spec_c7_invite_rewards (s : ChainState) (caller inviter code : Nat) (now : Int)
    (s' : ChainState)
    (h : stepResult s (.registerAgentWithInvite caller inviter code now) = .ok s') :
    (∃ a, findAgent s' caller = some a ∧ a.clips_balance = protoBase s * 3 / 2) ∧
    (∀ ia, findAgent s inviter = some ia →
      ∃ ia', findAgent s' inviter = some ia' ∧
        ia'.clips_balance = ia.clips_balance + protoBase s / 2) ∧
    protoTotalClips s' = protoTotalClips s + (protoBase s * 3 / 2 + protoBase s / 2) := by
  obtain ⟨p, ia, ir, hp, hnone, hia, hir, hself, hact, hiw, hcw, hicw,
    hq1, hq2, hq3, hq4, hq5, hq6, hq7, h2⟩ := doRegisterWithInvite_ok h
  subst h2
  have hbase : protoBase s = p.base_reward_unit := by simp [protoBase, hp]
  obtain ⟨hiamem, hiaw⟩ := findAgent_some hia
  have hne : ¬ caller = inviter := by
    intro h0
    exact hself (hiaw.trans h0.symm)
  refine ⟨?_, ?_, ?_⟩
  · refine ⟨freshInvitedAgent caller (p.base_reward_unit * 3 / 2) ia.wallet now, ?_, ?_⟩
    · simp [findAgent, freshInvitedAgent]
    · simp [freshInvitedAgent, hbase]
  · intro ia0 hia0
    rw [hia] at hia0
    injection hia0 with hia0
    subst hia0
    refine ⟨{ ia with
        clips_balance := ia.clips_balance + p.base_reward_unit / 2
        invites_sent := ia.invites_sent + 1
        last_active_at := now }, ?_, ?_⟩
    · show findAgent _ inviter = _
      simp only [findAgent]
      rw [List.find?_cons_of_neg _ (by simp [freshInvitedAgent, hne])]
      rw [findAgent_updAgents s.agents ia.wallet inviter
        (fun a => { a with
          clips_balance := ia.clips_balance + p.base_reward_unit / 2
          invites_sent := ia.invites_sent + 1
          last_active_at := now })
        (fun a => rfl)]
      simp only [findAgent] at hia
      rw [hia]
      simp
    · simp [hbase]
  · simp [protoTotalClips, hp, hbase, Nat.add_assoc]

/-- Witness for C7 at base_reward_unit = 1000: the invitee receives
1500 = 1000·3/2, the inviter bonus is 500 = 1000/2, and
`total_clips_distributed` rises by exactly 2000. -/
theorem spec_c7_invite_rewards_witness :
    ((∃ a, findAgent sTwo 2 = some a ∧ a.clips_balance = protoBase sInv * 3 / 2) ∧
     (∀ ia, findAgent sInv 1 = some ia →
       ∃ ia', findAgent sTwo 1 = some ia' ∧
         ia'.clips_balance = ia.clips_balance + protoBase sInv / 2) ∧
     protoTotalClips sTwo
       = protoTotalClips sInv + (protoBase sInv * 3 / 2 + protoBase sInv / 2)) ∧
    (findAgent sTwo 2).map (fun a => a.clips_balance) = some 1500 ∧
    (findAgent sTwo 1).map (fun a => a.clips_balance) = some 1500 ∧
    protoBase sInv = 1000 ∧
    protoTotalClips sTwo = protoTotalClips sInv + 2000 :=
  ⟨spec_c7_invite_rewards sInv 2 1 1 7 sTwo (by decide), by decide, by decide, by decide,
   by decide⟩

/-- C8: `submit_proof` decides its precondition checks in order — tier
before prerequisite verification, prerequisite verification before the
active check, the active check before the capacity check — so whichever
earliest check fails determines the error, regardless of the state of
the later checks. -/
theorem spec_c8_check_order (s : ChainState) (caller tid pcid : Nat)
    (pa : Option SuppliedAccount) (now : Int) (p : ProtocolState) (task : TaskRecord)
    (agent : AgentAccount) (hp : s.protocol = some p)
    (ht : findTask s (tid % U32) = some task) (ha : findAgent s caller = some agent)
    (hc : findClaim s (tid % U32) caller = none) :
    (agent.efficiency_tier < task.min_tier →
      stepResult s (.submitProof caller tid pcid pa now) = .error .TierTooLow) ∧
    (task.min_tier ≤ agent.efficiency_tier →
      ∀ e, prereqCheck task caller pa = .error e →
        stepResult s (.submitProof caller tid pcid pa now) = .error e) ∧
    (task.min_tier ≤ agent.efficiency_tier → prereqCheck task caller pa = .ok () →
      task.is_active = false →
      stepResult s (.submitProof caller tid pcid pa now) = .error .TaskInactive) ∧
    (task.min_tier ≤ agent.efficiency_tier → prereqCheck task caller pa = .ok () →
      task.is_active = true → ¬ task.current_claims < task.max_claims →
      stepResult s (.submitProof caller tid pcid pa now) = .error .TaskFullyClaimed) := by
  refine ⟨?_, ?_, ?_, ?_⟩
  · intro htier
    simp only [stepResult, doSubmitProof, hp, ht, ha, getOr_some, ok_bind,
      require_pos _ hc, require_neg _ (Nat.not_le.mpr htier), error_bind]
  · intro htier e hpr
    exact submitProof_prereq_error hp ht ha hc htier hpr
  · intro htier hpr hinact
    simp only [stepResult, doSubmitProof, hp, ht, ha, getOr_some, ok_bind,
      require_pos _ hc, require_pos _ htier, hpr,
      require_neg _ (by simp [hinact] : ¬ task.is_active = true), error_bind]
  · intro htier hpr hact hcap
    simp only [stepResult, doSubmitProof, hp, ht, ha, getOr_some, ok_bind,
      require_pos _ hc, require_pos _ htier, hpr, require_pos _ hact,
      require_neg _ hcap, error_bind]

/-- Witness for C8 at `sFin`: task 12 (min_tier 3, inactive, capacity 0)
rejects low-tier agent 1 with `TierTooLow` even though the task is also
inactive and fully claimed; inactive task 13 with an unmet prerequisite
rejects with the prerequisite error, not `TaskInactive`; inactive
zero-capacity task 14 rejects with `TaskInactive`, not
`TaskFullyClaimed`; and the active but full task 10 rejects with
`TaskFullyClaimed`. -/
theorem spec_c8_check_order_witness :
    stepResult sFin (.submitProof 1 12 0 none 40) = .error .TierTooLow ∧
    stepResult sFin (.submitProof 2 13 0 none 41) = .error .MissingRequiredTaskProof ∧
    stepResult sFin (.submitProof 1 14 0 none 42) = .error .TaskInactive ∧
    stepResult sFin (.submitProof 2 10 0 none 43) = .error .TaskFullyClaimed :=
  ⟨(spec_c8_check_order sFin 1 12 0 none 40 ⟨1, 0, 1000, 2, 4, 3500, false⟩
      ⟨0, 12, 0, 0, 0, 10, 0, 0, false, 20, 3, NO_PREREQ_TASK_ID⟩
      ⟨1, 1, 2000, 0, 1, 5, 9, 1, 0, 0⟩
      (by decide) (by decide) (by decide) (by decide)).1 (by decide),
   (spec_c8_check_order sFin 2 13 0 none 41 ⟨1, 0, 1000, 2, 4, 3500, false⟩
      ⟨0, 13, 0, 0, 0, 10, 1, 0, false, 21, 0, 10⟩
      ⟨1, 2, 1500, 0, 0, 7, 7, 0, 1, 1⟩
      (by decide) (by decide) (by decide) (by decide)).2.1 (by decide)
      .MissingRequiredTaskProof (by decide),
   (spec_c8_check_order sFin 1 14 0 none 42 ⟨1, 0, 1000, 2, 4, 3500, false⟩
      ⟨0, 14, 0, 0, 0, 10, 0, 0, false, 22, 0, NO_PREREQ_TASK_ID⟩
      ⟨1, 1, 2000, 0, 1, 5, 9, 1, 0, 0⟩
      (by decide) (by decide) (by decide) (by decide)).2.2.1 (by decide) (by decide)
      (by decide),
   (spec_c8_check_order sFin 2 10 0 none 43 ⟨1, 0, 1000, 2, 4, 3500, false⟩
      ⟨0, 10, 0, 77, 88, 500, 1, 1, true, 8, 0, NO_PREREQ_TASK_ID⟩
      ⟨1, 2, 1500, 0, 0, 7, 7, 0, 1, 1⟩
      (by decide) (by decide) (by decide) (by decide)).2.2.2 (by decide) (by decide)
      (by decide) (by decide)⟩

/-- C9 counterexample: at the reachable state `sInv` (agent 1 registered
with an invite record), agent 1 redeeming its own invite fails — but
with the resolution-phase creation conflict (the `init` of the caller's
agent account hits the already-occupied derived address), not with
`SelfReferralNotAllowed`, and nothing changes. -/
theorem spec_c9_self_referral_counterexample :
    stepResult sInv (.registerAgentWithInvite 1 1 1 7) = .error .AccountAlreadyInUse ∧
    stepResult sInv (.registerAgentWithInvite 1 1 1 7) ≠ .error .SelfReferralNotAllowed ∧
    applyStep sInv (.registerAgentWithInvite 1 1 1 7) = sInv := by decide

/-- C9 (amended): a `register_agent_with_invite` whose caller equals the
inviter can never succeed and never mutates state — the resolution phase
fails first (the caller's agent-account `init` collides with the inviter
agent record, or no inviter agent record exists) — and the handler's
`SelfReferralNotAllowed` rejection is unreachable from the program
entrypoint in any state. -/
theorem spec_c9_self_referral_amended (s : ChainState) (caller code : Nat) (now : Int) :
    (∀ s', stepResult s (.registerAgentWithInvite caller caller code now) ≠ .ok s') ∧
    applyStep s (.registerAgentWithInvite caller caller code now) = s ∧
    (∀ (caller' inviter' code' : Nat) (now' : Int),
      stepResult s (.registerAgentWithInvite caller' inviter' code' now')
        ≠ .error .SelfReferralNotAllowed) := by
  have hno : ∀ s', stepResult s (.registerAgentWithInvite caller caller code now) ≠ .ok s' := by
    intro s' hok
    obtain ⟨p, ia, ir, hp, hnone, hia, hir, hself, _⟩ := doRegisterWithInvite_ok hok
    exact hself (findAgent_some hia).2
  refine ⟨hno, ?_, ?_⟩
  · cases hres : stepResult s (.registerAgentWithInvite caller caller code now) with
    | ok s' => exact absurd hres (hno s')
    | error e => exact applyStep_err hres
  · intro caller' inviter' code' now' hbad
    rcases doRegisterWithInvite_err_inv hbad with h | h | h | h |
      ⟨he, hnone, ia, hia, hw⟩ | ⟨he, _⟩
    · exact absurd h (by decide)
    · exact absurd h (by decide)
    · exact absurd h (by decide)
    · exact absurd h (by decide)
    · have hwi : ia.wallet = inviter' := (findAgent_some hia).2
      rw [hw] at hwi
      rw [hwi] at hnone
      rw [hnone] at hia
      exact Option.noConfusion hia
    · exact absurd he (by decide)

/-- Witness for C9 (amended) at `sInv`: the self-referral attempt leaves
the state unchanged, and concretely fails with the creation conflict. -/
theorem spec_c9_self_referral_amended_witness :
    applyStep sInv (.registerAgentWithInvite 1 1 1 9) = sInv ∧
    stepResult sInv (.registerAgentWithInvite 1 1 1 9) = .error .AccountAlreadyInUse :=
  ⟨(spec_c9_self_referral_amended sInv 1 1 9).2.1, by decide⟩

/-- C10: no operation ever deactivates an Invite record — `create_invite`
creates it active and the only later mutation increments its redemption
counter — so in every reachable state all invites are active and the
`InviteInactive` rejection of `register_agent_with_invite` can never
fire. -/
theorem spec_c10_invites_always_active (s : ChainState) (hr : Reachable s) :
    (∀ iv ∈ s.invites, iv.is_active = true) ∧
    (∀ (caller inviter code : Nat) (now : Int),
      stepResult s (.registerAgentWithInvite caller inviter code now)
        ≠ .error .InviteInactive) := by
  have hIA := (reachable_inv hr).2.2
  refine ⟨hIA, ?_⟩
  intro caller inviter code now hbad
  rcases doRegisterWithInvite_err_inv hbad with h | h | h | h | ⟨he, _⟩ |
    ⟨he, ia, ir, hia, hir, hinact⟩
  · exact absurd h (by decide)
  · exact absurd h (by decide)
  · exact absurd h (by decide)
  · exact absurd h (by decide)
  · exact absurd he (by decide)
  · have := hIA ir (findInvite_some hir).1
    rw [this] at hinact
    exact Bool.noConfusion hinact

/-- Witness for C10 at `sInv`: the single invite is active, and the
redemption by agent 3 is not rejected with `InviteInactive` (it in fact
fails with `AccountNotFound`, since wallet 3 is not an agent... it is
rejected only for resolution reasons, never `InviteInactive`). -/
theorem spec_c10_invites_always_active_witness :
    (∀ iv ∈ sInv.invites, iv.is_active = true) ∧
    stepResult sInv (.registerAgentWithInvite 3 1 1 8) ≠ .error .InviteInactive ∧
    (findInvite sInv 1).map (fun iv => iv.is_active) = some true :=
  ⟨(spec_c10_invites_always_active sInv reachable_sInv).1,
   (spec_c10_invites_always_active sInv reachable_sInv).2 3 1 1 8,
   by decide⟩

end Paperclip
